import Mathlib

/-!
Shallow embedding of the account-authentication subsystem of
`src/backend/app.py` (a Flask backend): password hashing and verification,
input validation and sanitization, the credential store kept in
`users.json`, the login lockout policy, JWT issuance/verification, and the
bearer-token middleware, together with proofs of the behavioural claims
about them.

Modelling conventions:
* Time is a natural number of microseconds (Python `datetime` has
  microsecond resolution).  `datetime.isoformat` round-trips, so stored
  timestamps are kept as numbers.
* Python strings are Lean `String`s; the string helpers (`lower`, `strip`,
  slicing, `html.escape`) are embedded over `String.data` character lists.
  `str.lower`/`str.strip` are modelled on their ASCII behaviour, which is
  the relevant range here because every stored value passes the ASCII-only
  validators first.
* bcrypt is modelled symbolically: the digest part of a hash string is
  stood for by the hashed password itself, so a hash is
  `"$2b$12$" ++ salt ++ password` (7-char header, 22-char salt, digest).
  Verification re-derives the salt from the stored string exactly like
  `bcrypt.checkpw`.  The random salt is threaded as an explicit argument.
* User ids are `str(len(users)+1)` in the source; `str` is injective on
  naturals and ids are only ever compared for equality, so they are
  modelled as the underlying naturals.
-/

/-- Numeric code point of a character, used so that all character-class
definitions below are plain arithmetic over `Nat`. -/
abbrev cp (c : Char) : Nat := c.toNat

/-- Characters removed by `sanitize_input`'s first step, the regex
`[\x00-\x08\x0B-\x0C\x0E-\x1F\x7F]` (control characters except tab,
newline and carriage return). -/
def isStrippedControl (c : Char) : Bool :=
  (cp c ≤ 8) || (cp c = 11) || (cp c = 12) || (14 ≤ cp c && cp c ≤ 31) || (cp c = 127)

/-- Whitespace stripped by Python `str.strip` (ASCII range). -/
def isPySpace (c : Char) : Bool :=
  (cp c = 32) || (cp c = 9) || (cp c = 10) || (cp c = 13) || (cp c = 11) || (cp c = 12)

/-- Model of Python `str.lower` on one character (ASCII range: the
validators only let ASCII-classified text reach the store). -/
def pyLowerChar (c : Char) : Char :=
  if 65 ≤ cp c ∧ cp c ≤ 90 then Char.ofNat (cp c + 32) else c

/-- Model of Python `str.lower`. -/
def pyLower (s : String) : String :=
  ⟨s.data.map pyLowerChar⟩

/-- Model of Python `str.strip` (no arguments: strip whitespace at both
ends). -/
def pyStrip (s : String) : String :=
  ⟨((s.data.dropWhile isPySpace).reverse.dropWhile isPySpace).reverse⟩

/-- Replacement performed by `html.escape` on one character. `html.escape`
replaces `&` first and then the other four characters, which is the same
as this single character-wise map. -/
def escChar (c : Char) : List Char :=
  if cp c = 38 then "&amp;".data
  else if cp c = 60 then "&lt;".data
  else if cp c = 62 then "&gt;".data
  else if cp c = 34 then "&quot;".data
  else if cp c = 39 then "&#x27;".data
  else [c]

/-- Split a character list at every occurrence of a separator, keeping
empty segments: the semantics of Python `str.split(sep)` with an explicit
one-character separator. -/
def splitOnChar (sep : Char) : List Char → List (List Char)
  | [] => [[]]
  | c :: rest =>
    if c == sep then [] :: splitOnChar sep rest
    else match splitOnChar sep rest with
      | [] => [[c]]
      | w :: ws => (c :: w) :: ws

/-- Model of Python `header.split(' ')`. -/
def pySplitSpace (s : String) : List String :=
  (splitOnChar ' ' s.data).map (fun l => ⟨l⟩)

/-- Model of `html.escape` (with its default `quote=True`). -/
def htmlEscape (l : List Char) : List Char :=
  l.flatMap escChar

/-- Embedding of `sanitize_input(text, max_length)`: strip the control
characters, HTML-escape, truncate to `max_length` when given, then
`strip()`.  The non-string early return is not modelled (all call sites
pass strings). -/
def sanitize_input (text : String) (maxLength : Option Nat) : String :=
  let t1 := (text.data.filter (fun c => !(isStrippedControl c)))
  let t2 := htmlEscape t1
  let t3 := match maxLength with
    | some m => if t2.length > m then t2.take m else t2
    | none => t2
  pyStrip ⟨t3⟩

/-- Character class `[a-zA-Z0-9._%+-]` of the email regex's local part. -/
def emailLocalChar (c : Char) : Bool :=
  (97 ≤ cp c && cp c ≤ 122) || (65 ≤ cp c && cp c ≤ 90) || (48 ≤ cp c && cp c ≤ 57)
  || (cp c = 46) || (cp c = 95) || (cp c = 37) || (cp c = 43) || (cp c = 45)

/-- Character class `[a-zA-Z0-9.-]` of the email regex's domain part. -/
def emailDomainChar (c : Char) : Bool :=
  (97 ≤ cp c && cp c ≤ 122) || (65 ≤ cp c && cp c ≤ 90) || (48 ≤ cp c && cp c ≤ 57)
  || (cp c = 46) || (cp c = 45)

/-- Character class `[a-zA-Z]`. -/
def asciiAlpha (c : Char) : Bool :=
  (97 ≤ cp c && cp c ≤ 122) || (65 ≤ cp c && cp c ≤ 90)

/-- Decision procedure for the anchored regex
`^[a-zA-Z0-9._%+-]+@[a-zA-Z0-9.-]+\.[a-zA-Z]{2,}$` of `validate_email`.
Since `@` belongs to neither class, a match needs exactly one `@`; the
trailing `[a-zA-Z]{2,}$` is dot-free, so its only possible position is
after the last dot of the domain part. -/
def emailRegexMatch (s : String) : Bool :=
  match s.data.splitOn '@' with
  | [l, r] =>
    (!l.isEmpty) && l.all emailLocalChar &&
    (let revTld := r.reverse.takeWhile (fun c => !(cp c = 46))
     let d := (r.reverse.drop (revTld.length + 1)).reverse
     decide (revTld.length < r.length) && (!d.isEmpty) && d.all emailDomainChar &&
     decide (2 ≤ revTld.length) && revTld.all asciiAlpha)
  | _ => false

/-- Characters rejected by `validate_email`'s dangerous-character check:
`< > " ' &` and NUL. -/
def dangerousEmailChar (c : Char) : Bool :=
  (cp c = 60) || (cp c = 62) || (cp c = 34) || (cp c = 39) || (cp c = 38) || (cp c = 0)

/-- Embedding of `validate_email`. -/
def validate_email (email : String) : Bool :=
  (!email.isEmpty) &&
  (email.length ≤ 255) &&
  emailRegexMatch email &&
  (!email.data.any dangerousEmailChar)

/-- Character class `[a-zA-Z0-9_-]` of the username regex. -/
def usernameChar (c : Char) : Bool :=
  (97 ≤ cp c && cp c ≤ 122) || (65 ≤ cp c && cp c ≤ 90) || (48 ≤ cp c && cp c ≤ 57)
  || (cp c = 95) || (cp c = 45)

/-- Characters rejected by `validate_username`'s dangerous-character
check: `< > " ' &`, NUL, `;`, `|` and the backquote. -/
def dangerousUsernameChar (c : Char) : Bool :=
  dangerousEmailChar c || (cp c = 59) || (cp c = 124) || (cp c = 96)

/-- Embedding of `validate_username`. -/
def validate_username (username : String) : Bool :=
  (!username.isEmpty) &&
  (3 ≤ username.length) && (username.length ≤ 20) &&
  username.data.all usernameChar &&
  (!username.data.any dangerousUsernameChar)

/-- The fixed `"$2b$12$"` header that `bcrypt.gensalt(rounds=12)` puts in
front of every salt and hash this program produces. -/
def bcryptHeader : String := "$2b$12$"

/-- Embedding of `hash_password` (bcrypt with a 12-round salt).  The
digest is modelled symbolically by the hashed password itself; `salt`
stands for the 22 base64 characters of `bcrypt.gensalt`. -/
def hash_password (salt : String) (password : String) : String :=
  bcryptHeader ++ salt ++ password

/-- Embedding of `verify_password`/`bcrypt.checkpw`: re-derive the salt
from the stored string (7-char header plus 22-char salt) and compare the
recomputation with the stored hash. -/
def verify_password (password : String) (hashed : String) : Bool :=
  hashed == bcryptHeader ++ ⟨(hashed.data.drop 7).take 22⟩ ++ password

/-- The fixed placeholder hash `"$2b$12$" + "x" * 53` that `login` uses
for the dummy verification when no account matches the email. -/
def dummy_hash : String := bcryptHeader ++ ⟨List.replicate 53 'x'⟩

/-- A user record of `users.json`.  Field names follow the JSON keys the
source writes; `last_login` only exists on records that have logged in at
least once, hence the `Option`. -/
structure User where
  id : Nat
  username : String
  email : String
  password : String
  gender : String
  avatar : Option String
  createdAt : Nat
  updatedAt : Nat
  failed_login_attempts : Nat
  locked_until : Option Nat
  last_login : Option Nat := none
deriving Repr, DecidableEq

/-- The credential store: the `users.json` dictionary, an insertion-ordered
map from email key to record (Python dict semantics). -/
abbrev Store := List (String × User)

/-- Model of `users.get(key)` / `users[key]` lookup. -/
def storeGet (s : Store) (k : String) : Option User :=
  match s.find? (fun e => e.1 == k) with
  | some e => some e.2
  | none => none

/-- Model of `key in users`. -/
def storeContains (s : Store) (k : String) : Bool :=
  s.any (fun e => e.1 == k)

/-- Model of `users[key] = u`: replace in place when the key exists
(Python dicts keep the position), append otherwise. -/
def storeSet : Store → String → User → Store
  | [], k, u => [(k, u)]
  | e :: rest, k, u => if e.1 == k then (k, u) :: rest else e :: storeSet rest k u

/-- Model of `del users[key]`. -/
def storeErase : Store → String → Store
  | [], _ => []
  | e :: rest, k => if e.1 == k then rest else e :: storeErase rest k

/-- Model of `next((u for u in users.values() if u["id"] == user_id), None)`. -/
def storeFindById (s : Store) (userId : Nat) : Option (String × User) :=
  s.find? (fun e => e.2.id == userId)

/-- JSON values appearing in a serialized user record. -/
inductive JsonVal
  | str (s : String)
  | num (n : Nat)
  | null
deriving Repr, DecidableEq

/-- The key/value items of a user record as `jsonify` would see the dict:
all fields, in insertion order, `last_login` present only when set. -/
def userItems (u : User) : List (String × JsonVal) :=
  [("id", .num u.id), ("username", .str u.username), ("email", .str u.email),
   ("password", .str u.password), ("gender", .str u.gender),
   ("avatar", match u.avatar with | some a => .str a | none => .null),
   ("createdAt", .num u.createdAt), ("updatedAt", .num u.updatedAt),
   ("failed_login_attempts", .num u.failed_login_attempts),
   ("locked_until", match u.locked_until with | some t => .num t | none => .null)]
  ++ (match u.last_login with | some t => [("last_login", .num t)] | none => [])

/-- Embedding of the response projection
`{k: v for k, v in user.items() if k != "password"}` used by every
user-returning handler. -/
def user_response (u : User) : List (String × JsonVal) :=
  (userItems u).filter (fun kv => kv.1 != "password")

/-- Microseconds per second; `int(td.total_seconds())` on a nonnegative
difference is division by this. -/
def usecPerSec : Nat := 1000000

/-- The 15-minute lockout span of `login`, in microseconds. -/
def lockoutSpan : Nat := 15 * 60 * usecPerSec

/-- `JWT_ACCESS_TOKEN_EXPIRES = timedelta(hours=24)`, in the whole seconds
PyJWT serializes timestamps to. -/
def jwtExpiresSecs : Nat := 24 * 60 * 60

/-- Claims of an access token as `generate_jwt_token` builds them.  PyJWT
stores `exp`/`iat` as whole epoch seconds (it truncates the datetime). -/
structure JwtPayload where
  user_id : Nat
  email : String
  exp : Nat
  iat : Nat
  typ : String
deriving Repr, DecidableEq

/-- A serialized token: payload plus HMAC-SHA256 signature.  The signature
is modelled symbolically by the signing key, which is exactly the
information a valid signature binds the token to. -/
structure Jwt where
  payload : JwtPayload
  sig : String
deriving Repr, DecidableEq

/-- Embedding of `generate_jwt_token(user_id, email)` called at time
`now`: 24-hour expiry, issue time, type `access`, signed with the
process-wide `JWT_SECRET_KEY`. -/
def generate_jwt_token (secret : String) (now : Nat) (userId : Nat) (email : String) : Jwt :=
  { payload := { user_id := userId, email := email,
                 exp := now / usecPerSec + jwtExpiresSecs,
                 iat := now / usecPerSec, typ := "access" },
    sig := secret }

/-- Embedding of `verify_jwt_token` applied to an already-parsed token:
`jwt.decode` rejects a wrong signature (`InvalidTokenError`) and rejects
`exp <= now` (`ExpiredSignatureError`), both as `None`. -/
def verify_jwt_token (secret : String) (now : Nat) (t : Jwt) : Option JwtPayload :=
  if t.sig == secret then
    if t.payload.exp ≤ now / usecPerSec then none
    else some t.payload
  else none

/-- Observable outcome of a request handler: a JSON error with its HTTP
status, or a success status with the serialized user and, for register
and login, the issued token. -/
inductive ApiResp
  | err (status : Nat) (msg : String)
  | ok (status : Nat) (user : List (String × JsonVal)) (token : Option Jwt)
deriving Repr, DecidableEq

/-- The 423 lockout message `f"账户已被锁定，请{remaining}秒后重试"`. -/
def lockedMsg (remaining : Nat) : String :=
  "账户已被锁定，请" ++ toString remaining ++ "秒后重试"

/-- Whether `login`'s lockout gate fires: `locked_until` is set and still
in the future. -/
def lockedActive (u : User) (now : Nat) : Bool :=
  match u.locked_until with
  | some t => decide (now < t)
  | none => false

/-- The reported wait, `int((locked_until - datetime.now()).total_seconds())`:
whole seconds of the remaining difference. -/
def lockRemaining (u : User) (now : Nat) : Nat :=
  match u.locked_until with
  | some t => (t - now) / usecPerSec
  | none => 0

/-- Embedding of the `/api/login` handler body.  Returns the response, the
store as persisted by `save_users` (unchanged on paths that never save),
and the trace of `verify_password(password, hash)` calls the request
performed, in order. -/
def login (users : Store) (now : Nat) (secret : String)
    (emailRaw passwordRaw : String) : ApiResp × Store × List (String × String) :=
  let email := pyLower (pyStrip emailRaw)
  let password := passwordRaw
  if email == "" || password == "" then (.err 400 "邮箱和密码不能为空", users, [])
  else if !(validate_email email) then (.err 401 "邮箱或密码错误", users, [])
  else
    match storeGet users email with
    | none => (.err 401 "邮箱或密码错误", users, [(password, dummy_hash)])
    | some user =>
      if lockedActive user now then
        (.err 423 (lockedMsg (lockRemaining user now)), users, [])
      else if !(verify_password password user.password) then
        let attempts := user.failed_login_attempts + 1
        let user1 :=
          if 5 ≤ attempts then
            { user with failed_login_attempts := 0, locked_until := some (now + lockoutSpan) }
          else { user with failed_login_attempts := attempts }
        (.err 401 "邮箱或密码错误", storeSet users email user1, [(password, user.password)])
      else
        let user1 := { user with
          failed_login_attempts := 0, locked_until := none, last_login := some now }
        (.ok 200 (user_response user1) (some (generate_jwt_token secret now user.id email)),
         storeSet users email user1, [(password, user.password)])

/-- The digit class `[0-9]` of the password-strength check. -/
def asciiDigit (c : Char) : Bool := 48 ≤ cp c && cp c ≤ 57

/-- Embedding of the `/api/register` handler body.  `salt` is the
`bcrypt.gensalt` randomness; `genderRaw` is `data.get("gender", "")`;
`avatar` is `data.get("avatar")`.  Returns the response and the persisted
store. -/
def register (users : Store) (now : Nat) (secret salt : String)
    (emailRaw passwordRaw usernameInput genderRaw : String)
    (avatar : Option String) : ApiResp × Store :=
  let email := pyLower (pyStrip emailRaw)
  let password := passwordRaw
  let username_raw := pyStrip usernameInput
  if email == "" || password == "" || username_raw == "" then
    (.err 400 "缺少必填字段", users)
  else if !(validate_email email) then (.err 400 "邮箱格式无效", users)
  else if !(validate_username username_raw) then
    (.err 400 "用户名格式无效。只能包含字母、数字、下划线和连字符，长度3-20字符", users)
  else
    let username := sanitize_input username_raw (some 20)
    if password.length < 8 then (.err 400 "密码长度至少8位", users)
    else if 128 < password.length then (.err 400 "密码长度不能超过128位", users)
    else if !(password.data.any asciiAlpha) || !(password.data.any asciiDigit) then
      (.err 400 "密码必须包含字母和数字", users)
    else if storeContains users email then (.err 400 "该邮箱已被注册", users)
    else if (users.map (fun e => pyLower e.2.username)).contains (pyLower username) then
      (.err 400 "该用户名已被使用", users)
    else if (match avatar with
             | some a => !(a == "") && decide (2097152 < a.length)
             | none => false) then
      (.err 400 "头像数据过大", users)
    else
      let userId := users.length + 1
      let user : User :=
        { id := userId, username := username, email := email,
          password := hash_password salt password,
          gender := sanitize_input genderRaw (some 10),
          avatar := avatar, createdAt := now, updatedAt := now,
          failed_login_attempts := 0, locked_until := none }
      (.ok 201 (user_response user) (some (generate_jwt_token secret now userId email)),
       storeSet users email user)

/-- Embedding of the `GET /api/user/<user_id>` handler body after the auth
middleware: `currentUserId` is `g.current_user_id` from the verified
token. -/
def get_user (users : Store) (currentUserId userId : Nat) : ApiResp :=
  if userId != currentUserId then .err 403 "无权访问"
  else
    match storeFindById users userId with
    | none => .err 404 "用户不存在"
    | some entry => .ok 200 (user_response entry.2) none

/-- The partial-update body of `PUT /api/user/<user_id>`: a field is
`none` when the key is absent from the request JSON.  The avatar value
itself may be JSON `null`, hence the nested `Option`. -/
structure UpdateData where
  username : Option String := none
  email : Option String := none
  gender : Option String := none
  avatar : Option (Option String) := none

/-- The `if "username" in data` branch of `update_user`: validate, sanitize
and uniqueness-check (against every record of a different id) the new
username, or pass the record through when the field is absent. -/
def updUsernameStep (users : Store) (userId : Nat) (user0 : User) :
    Option String → Except ApiResp User
  | none => .ok user0
  | some uraw =>
    let username_raw := pyStrip uraw
    if !(validate_username username_raw) then .error (.err 400 "用户名格式无效")
    else
      let username := sanitize_input username_raw (some 20)
      let existing := (users.filter (fun e => e.2.id != userId)).map
        (fun e => pyLower e.2.username)
      if existing.contains (pyLower username) then .error (.err 400 "该用户名已被使用")
      else .ok { user0 with username := username }

/-- The `if "email" in data` branch of `update_user`: validate the new
email, do nothing when it equals the current one, reject when the key is
taken, otherwise change the record's email and report the old email whose
key must be deleted (`del users[user["email"]]`). -/
def updEmailStep (users : Store) (user1 : User) :
    Option String → Except ApiResp (User × Option String)
  | none => .ok (user1, none)
  | some eraw =>
    let newEmail := pyLower (pyStrip eraw)
    if !(validate_email newEmail) then .error (.err 400 "邮箱格式无效")
    else if newEmail == user1.email then .ok (user1, none)
    else if storeContains users newEmail then .error (.err 400 "该邮箱已被使用")
    else .ok ({ user1 with email := newEmail }, some user1.email)

/-- The `if "gender" in data` branch of `update_user`. -/
def updGenderStep (user2 : User) : Option String → User
  | some g => { user2 with gender := sanitize_input g (some 10) }
  | none => user2

/-- The `if "avatar" in data` branch of `update_user`: reject an oversized
non-empty avatar, otherwise store the given value (possibly JSON null). -/
def updAvatarStep (user3 : User) : Option (Option String) → Except ApiResp User
  | none => .ok user3
  | some (some a) =>
    if !(a == "") && decide (2097152 < a.length) then
      .error (.err 400 "头像数据过大")
    else .ok { user3 with avatar := some a }
  | some none => .ok { user3 with avatar := none }

/-- Embedding of the `PUT /api/user/<user_id>` handler body.  The handler
mutates a loaded copy of the store and only persists it with `save_users`
on the success path, so every error path returns the store unchanged. -/
def update_user (users : Store) (now : Nat) (currentUserId userId : Nat)
    (data : UpdateData) : ApiResp × Store :=
  if userId != currentUserId then (.err 403 "无权访问", users)
  else
    match storeFindById users userId with
    | none => (.err 404 "用户不存在", users)
    | some entry =>
      let key := entry.1
      let user0 := entry.2
      match updUsernameStep users userId user0 data.username with
      | .error r => (r, users)
      | .ok user1 =>
        match updEmailStep users user1 data.email with
        | .error r => (r, users)
        | .ok (user2, rekeyedFrom) =>
          let user3 := updGenderStep user2 data.gender
          match updAvatarStep user3 data.avatar with
          | .error r => (r, users)
          | .ok user4 =>
            let user5 := { user4 with updatedAt := now }
            let users1 := match rekeyedFrom with
              | some oldEmail => storeSet (storeErase users oldEmail) user5.email user5
              | none => storeSet users key user5
            (.ok 200 (user_response user5) none, users1)

/-- Outcome of the `require_auth` middleware: a 401 rejection, or the
request proceeds with `g.current_user_id`/`g.current_user_email` set from
the verified payload. -/
inductive AuthOutcome
  | reject (status : Nat) (msg : String)
  | proceed (userId : Nat) (email : String)
deriving Repr, DecidableEq

/-- Embedding of the `require_auth` decorator.  In the source
`verify_jwt_token` both parses the compact serialization and validates
it; here the base64/JSON parse is the parameter `dec` (for every issued
token some string parses to it, and strings that are not well-formed
tokens parse to `none`) and validation is `verify_jwt_token` above.
Either failure is the same `None` in the source, hence the same
rejection. -/
def require_auth (secret : String) (now : Nat) (dec : String → Option Jwt)
    (authHeader : Option String) : AuthOutcome :=
  let tokenStep : Except AuthOutcome (Option String) :=
    match authHeader with
    | none => .ok none
    | some h =>
      if h == "" then .ok none
      else
        match (pySplitSpace h)[1]? with
        | none => .error (.reject 401 "无效的认证头")
        | some t => .ok (some t)
  match tokenStep with
  | .error r => r
  | .ok none => .reject 401 "需要认证"
  | .ok (some t) =>
    if t == "" then .reject 401 "需要认证"
    else
      match (dec t).bind (verify_jwt_token secret now) with
      | none => .reject 401 "无效或过期的Token"
      | some p => .proceed p.user_id p.email

/-- The store transformation one login request persists, as a function of
the snapshot it loaded: the handler body between `load_users()` and
`save_users(users)`. -/
def loginStoreUpdate (now : Nat) (secret emailRaw passwordRaw : String)
    (snapshot : Store) : Store :=
  (login snapshot now secret emailRaw passwordRaw).2.1

/-- Atomic actions of two concurrent requests A and B against the shared
`users.json`: each request loads the file once and later writes back the
store computed from its snapshot.  No lock exists in the source, so any
interleaving of these actions is possible under the threaded server. -/
inductive ReqAction
  | loadA | saveA | loadB | saveB

/-- Shared file plus the per-request snapshots taken by `load_users`. -/
structure TwoReqState where
  shared : Store
  snapA : Option Store
  snapB : Option Store

/-- One atomic action: a load copies the shared store into the request's
snapshot; a save overwrites the shared store with the request's update
function applied to its snapshot. -/
def stepReq (fA fB : Store → Store) (st : TwoReqState) : ReqAction → TwoReqState
  | .loadA => { st with snapA := some st.shared }
  | .loadB => { st with snapB := some st.shared }
  | .saveA => match st.snapA with
    | some s => { st with shared := fA s }
    | none => st
  | .saveB => match st.snapB with
    | some s => { st with shared := fB s }
    | none => st

/-- Run a schedule of actions from an initial shared store and return the
final contents of `users.json`. -/
def runSchedule (fA fB : Store → Store) (sched : List ReqAction) (init : Store) : Store :=
  (sched.foldl (stepReq fA fB) { shared := init, snapA := none, snapB := none }).shared

/-- One failed login attempt at a given time with a given password: the
store persisted by that request.  Folding this over a list of
(time, password) pairs runs consecutive attempts. -/
def afterFailedAttempt (secret email : String) (st : Store) (tp : Nat × String) : Store :=
  (login st tp.1 secret email tp.2).2.1

/-- The invariant of every reachable `users.json`: each key is the
lowercase email of its record, keys are distinct, case-insensitive
usernames are distinct, and ids are distinct values in `1..len`. -/
def StoreInv (s : Store) : Prop :=
  (∀ e ∈ s, e.1 = e.2.email ∧ pyLower e.1 = e.1 ∧ 1 ≤ e.2.id ∧ e.2.id ≤ s.length)
  ∧ (s.map Prod.fst).Nodup
  ∧ (s.map (fun e => pyLower e.2.username)).Nodup
  ∧ (s.map (fun e => e.2.id)).Nodup

/-- The stores reachable from the initial empty `users.json` through the
three mutating handlers (with arbitrary request data, times, salts and
secrets). -/
inductive Reachable : Store → Prop
  | init : Reachable []
  | register_step {s s' : Store} {r : ApiResp} (now : Nat) (sec salt e p un g : String)
      (av : Option String) : Reachable s →
      register s now sec salt e p un g av = (r, s') → Reachable s'
  | login_step {s s' : Store} {r : ApiResp} {tr : List (String × String)}
      (now : Nat) (sec e p : String) : Reachable s →
      login s now sec e p = (r, s', tr) → Reachable s'
  | update_step {s s' : Store} {r : ApiResp} (now cu uid : Nat) (data : UpdateData) :
      Reachable s → update_user s now cu uid data = (r, s') → Reachable s'

/-- A fixed 22-character salt standing for one draw of `bcrypt.gensalt`. -/
def saltA : String := ⟨List.replicate 22 'a'⟩

/-- A concrete registered account used by the witnesses. -/
def demoUser : User :=
  { id := 1, username := "alice", email := "a@b.com",
    password := hash_password saltA "abc12345", gender := "", avatar := none,
    createdAt := 5, updatedAt := 5, failed_login_attempts := 0, locked_until := none }

/-- A one-account store holding `demoUser`. -/
def demoStore : Store := [("a@b.com", demoUser)]

/-- A second concrete account, owner of the email a conflicting update
targets. -/
def bobUser : User :=
  { id := 2, username := "bob", email := "b@b.com",
    password := hash_password saltA "bcd23456", gender := "", avatar := none,
    createdAt := 6, updatedAt := 6, failed_login_attempts := 0, locked_until := none }

/-- A two-account store for the conflict scenarios. -/
def twoStore : Store := [("a@b.com", demoUser), ("b@b.com", bobUser)]

/-- `demoUser` under an active lockout that expires at second 100. -/
def lockedDemoUser : User := { demoUser with locked_until := some (100 * usecPerSec) }

/-- `demoUser` three failed attempts into the lockout window. -/
def raceUser : User := { demoUser with failed_login_attempts := 3 }

/-- A concrete instance of the token parse (the `dec` parameter of
`require_auth`): exactly the string "tok" is the compact serialization of
one valid token signed with "sek"; every other string fails to parse. -/
def dec0 : String → Option Jwt := fun s =>
  if s == "tok" then
    some { payload := { user_id := 1, email := "a@b.com", exp := 86400, iat := 0,
                        typ := "access" },
           sig := "sek" }
  else none

theorem hash_password_ne_plaintext (s p : String) : hash_password s p ≠ p := by
  intro h
  have hl := congrArg String.length h
  have h7 : bcryptHeader.length = 7 := rfl
  simp [hash_password, String.length_append, h7] at hl

theorem validate_email_ne_empty {e : String} (h : validate_email e = true) : e ≠ "" := by
  intro he
  subst he
  exact absurd h (by decide)

theorem storeGet_storeSet_self (s : Store) (k : String) (u : User) :
    storeGet (storeSet s k u) k = some u := by
  induction s with
  | nil => simp [storeSet, storeGet, List.find?]
  | cons e rest ih =>
    by_cases hk : e.1 == k
    · simp [storeSet, hk, storeGet, List.find?]
    · simp only [storeSet, hk, if_false, Bool.false_eq_true, if_neg]
      simp only [storeGet, List.find?, hk] at ih ⊢
      exact ih

theorem user_response_no_password (u : User) :
    "password" ∉ (user_response u).map Prod.fst := by
  intro hmem
  rcases List.mem_map.mp hmem with ⟨kv, hkv, hfst⟩
  have hpred := (List.mem_filter.mp hkv).2
  rw [hfst] at hpred
  simp at hpred

/-- C3: a token produced by `generate_jwt_token` carries
`exp = iat + 24h`; `verify_jwt_token` (same process secret) accepts it at
every time before that recorded expiry, returning the issuing user id and
email, and rejects it with `None` at the expiry and ever after (PyJWT
treats `exp <= now` as expired). -/
theorem c3_issue_verify_roundtrip (secret : String) (uid : Nat) (email : String)
    (t tv : Nat) :
    (generate_jwt_token secret t uid email).payload.exp
        = (generate_jwt_token secret t uid email).payload.iat + jwtExpiresSecs
    ∧ (tv < (generate_jwt_token secret t uid email).payload.exp * usecPerSec →
        verify_jwt_token secret tv (generate_jwt_token secret t uid email)
          = some (generate_jwt_token secret t uid email).payload
        ∧ (generate_jwt_token secret t uid email).payload.user_id = uid
        ∧ (generate_jwt_token secret t uid email).payload.email = email)
    ∧ ((generate_jwt_token secret t uid email).payload.exp * usecPerSec ≤ tv →
        verify_jwt_token secret tv (generate_jwt_token secret t uid email) = none) := by
  refine ⟨rfl, fun h => ?_, fun h => ?_⟩
  · simp only [generate_jwt_token] at h ⊢
    have hnot : ¬ (t / usecPerSec + jwtExpiresSecs ≤ tv / usecPerSec) := by
      intro hc
      exact absurd ((Nat.le_div_iff_mul_le (by decide)).mp hc) (by omega)
    simp [verify_jwt_token, hnot]
  · simp only [generate_jwt_token] at h ⊢
    have hdiv : t / usecPerSec + jwtExpiresSecs ≤ tv / usecPerSec :=
      (Nat.le_div_iff_mul_le (by decide)).mpr h
    simp [verify_jwt_token, hdiv]

theorem c3_witness :
    ((1 : Nat) < (generate_jwt_token "sek" 0 1 "a@b.com").payload.exp * usecPerSec
      ∧ verify_jwt_token "sek" 1 (generate_jwt_token "sek" 0 1 "a@b.com")
          = some (generate_jwt_token "sek" 0 1 "a@b.com").payload)
    ∧ ((generate_jwt_token "sek" 0 1 "a@b.com").payload.exp * usecPerSec
          ≤ 86400 * usecPerSec
      ∧ verify_jwt_token "sek" (86400 * usecPerSec)
          (generate_jwt_token "sek" 0 1 "a@b.com") = none) := by
  constructor
  · exact ⟨by decide,
      ((c3_issue_verify_roundtrip "sek" 1 "a@b.com" 0 1).2.1 (by decide)).1⟩
  · exact ⟨by decide,
      (c3_issue_verify_roundtrip "sek" 1 "a@b.com" 0 (86400 * usecPerSec)).2.2 (by decide)⟩

theorem updUsernameStep_error_shape {users : Store} {userId : Nat} {user0 : User}
    {d : Option String} {r : ApiResp}
    (h : updUsernameStep users userId user0 d = .error r) :
    ∃ m, r = ApiResp.err 400 m := by
  cases d with
  | none => simp [updUsernameStep] at h
  | some uraw =>
    simp only [updUsernameStep] at h
    split at h
    · cases h
      exact ⟨_, rfl⟩
    · split at h
      · cases h
        exact ⟨_, rfl⟩
      · exact Except.noConfusion h

theorem updEmailStep_error_shape {users : Store} {user1 : User}
    {d : Option String} {r : ApiResp}
    (h : updEmailStep users user1 d = .error r) :
    ∃ m, r = ApiResp.err 400 m := by
  cases d with
  | none => simp [updEmailStep] at h
  | some eraw =>
    simp only [updEmailStep] at h
    split at h
    · cases h
      exact ⟨_, rfl⟩
    · split at h
      · exact Except.noConfusion h
      · split at h
        · cases h
          exact ⟨_, rfl⟩
        · exact Except.noConfusion h

theorem updAvatarStep_error_shape {user3 : User}
    {d : Option (Option String)} {r : ApiResp}
    (h : updAvatarStep user3 d = .error r) :
    ∃ m, r = ApiResp.err 400 m := by
  match d with
  | none => simp [updAvatarStep] at h
  | some (some a) =>
    simp only [updAvatarStep] at h
    split at h
    · cases h
      exact ⟨_, rfl⟩
    · exact Except.noConfusion h
  | some none => simp [updAvatarStep] at h

/-- C5: every user-returning operation (register, login, get profile,
update profile) serializes the user through the
`{k: v for k, v in user.items() if k != "password"}` projection, so no
success response contains a `password` field; and the stored hash is
never the plaintext password. -/
theorem c5_password_hash_never_exposed :
    (∀ (users : Store) (now : Nat) (secret salt e p un g : String) (av : Option String)
        (st : Nat) (r : List (String × JsonVal)) (tok : Option Jwt) (s' : Store),
        register users now secret salt e p un g av = (.ok st r tok, s') →
        "password" ∉ r.map Prod.fst)
    ∧ (∀ (users : Store) (now : Nat) (secret e p : String)
        (st : Nat) (r : List (String × JsonVal)) (tok : Option Jwt) (s' : Store)
        (tr : List (String × String)),
        login users now secret e p = (.ok st r tok, s', tr) →
        "password" ∉ r.map Prod.fst)
    ∧ (∀ (users : Store) (cu uid : Nat) (st : Nat) (r : List (String × JsonVal))
        (tok : Option Jwt),
        get_user users cu uid = .ok st r tok →
        "password" ∉ r.map Prod.fst)
    ∧ (∀ (users : Store) (now cu uid : Nat) (data : UpdateData)
        (st : Nat) (r : List (String × JsonVal)) (tok : Option Jwt) (s' : Store),
        update_user users now cu uid data = (.ok st r tok, s') →
        "password" ∉ r.map Prod.fst)
    ∧ (∀ salt p : String, hash_password salt p ≠ p) := by
  refine ⟨?_, ?_, ?_, ?_, hash_password_ne_plaintext⟩
  · intro users now secret salt e p un g av st r tok s' h
    simp only [register] at h
    repeat' split at h
    all_goals rw [Prod.mk.injEq] at h
    all_goals obtain ⟨h1, h2⟩ := h
    all_goals try exact absurd h1 (fun hh => ApiResp.noConfusion hh)
    all_goals rw [ApiResp.ok.injEq] at h1
    all_goals obtain ⟨hst, hr, htok⟩ := h1
    all_goals rw [← hr]
    all_goals exact user_response_no_password _
  · intro users now secret e p st r tok s' tr h
    simp only [login] at h
    repeat' split at h
    all_goals rw [Prod.mk.injEq] at h
    all_goals obtain ⟨h1, h2⟩ := h
    all_goals try exact absurd h1 (fun hh => ApiResp.noConfusion hh)
    all_goals rw [ApiResp.ok.injEq] at h1
    all_goals obtain ⟨hst, hr, htok⟩ := h1
    all_goals rw [← hr]
    all_goals exact user_response_no_password _
  · intro users cu uid st r tok h
    simp only [get_user] at h
    repeat' split at h
    all_goals try exact absurd h (fun hh => ApiResp.noConfusion hh)
    all_goals rw [ApiResp.ok.injEq] at h
    all_goals obtain ⟨hst, hr, htok⟩ := h
    all_goals rw [← hr]
    all_goals exact user_response_no_password _
  · intro users now cu uid data st r tok s' h
    simp only [update_user] at h
    split at h
    · rw [Prod.mk.injEq] at h
      exact absurd h.1 (fun hh => ApiResp.noConfusion hh)
    · split at h
      · rw [Prod.mk.injEq] at h
        exact absurd h.1 (fun hh => ApiResp.noConfusion hh)
      · split at h
        next resp heq =>
          rw [Prod.mk.injEq] at h
          obtain ⟨m, hm⟩ := updUsernameStep_error_shape heq
          rw [h.1] at hm
          exact ApiResp.noConfusion hm
        next user1 heq1 =>
          split at h
          next resp heq =>
            rw [Prod.mk.injEq] at h
            obtain ⟨m, hm⟩ := updEmailStep_error_shape heq
            rw [h.1] at hm
            exact ApiResp.noConfusion hm
          next user2 rekeyedFrom heq2 =>
            split at h
            next resp heq =>
              rw [Prod.mk.injEq] at h
              obtain ⟨m, hm⟩ := updAvatarStep_error_shape heq
              rw [h.1] at hm
              exact ApiResp.noConfusion hm
            next user4 heq3 =>
              rw [Prod.mk.injEq] at h
              obtain ⟨h1, h2⟩ := h
              rw [ApiResp.ok.injEq] at h1
              obtain ⟨hst, hr, htok⟩ := h1
              rw [← hr]
              exact user_response_no_password _

theorem c5_witness :
    (register [] 5 "sek" saltA "a@b.com" "abc12345" "alice" "" none
        = (.ok 201 (user_response demoUser) (some (generate_jwt_token "sek" 5 1 "a@b.com")),
           [("a@b.com", demoUser)])
      ∧ "password" ∉ (user_response demoUser).map Prod.fst)
    ∧ (login demoStore 10 "sek" "a@b.com" "abc12345"
        = (.ok 200 (user_response { demoUser with last_login := some 10 })
             (some (generate_jwt_token "sek" 10 1 "a@b.com")),
           [("a@b.com", { demoUser with last_login := some 10 })],
           [("abc12345", demoUser.password)])
      ∧ "password" ∉ (user_response { demoUser with last_login := some 10 }).map Prod.fst)
    ∧ (get_user demoStore 1 1 = .ok 200 (user_response demoUser) none)
    ∧ (update_user demoStore 20 1 1 {}
        = (.ok 200 (user_response { demoUser with updatedAt := 20 }) none,
           [("a@b.com", { demoUser with updatedAt := 20 })])
      ∧ "password" ∉ (user_response { demoUser with updatedAt := 20 }).map Prod.fst)
    ∧ hash_password saltA "abc12345" ≠ "abc12345" := by
  have hreg : register [] 5 "sek" saltA "a@b.com" "abc12345" "alice" "" none
      = (.ok 201 (user_response demoUser) (some (generate_jwt_token "sek" 5 1 "a@b.com")),
         [("a@b.com", demoUser)]) := by decide
  have hlogin : login demoStore 10 "sek" "a@b.com" "abc12345"
      = (.ok 200 (user_response { demoUser with last_login := some 10 })
           (some (generate_jwt_token "sek" 10 1 "a@b.com")),
         [("a@b.com", { demoUser with last_login := some 10 })],
         [("abc12345", demoUser.password)]) := by decide
  have hupd : update_user demoStore 20 1 1 {}
      = (.ok 200 (user_response { demoUser with updatedAt := 20 }) none,
         [("a@b.com", { demoUser with updatedAt := 20 })]) := by decide
  refine ⟨⟨hreg, ?_⟩, ⟨hlogin, ?_⟩, by decide, ⟨hupd, ?_⟩, ?_⟩
  · exact c5_password_hash_never_exposed.1 _ _ _ _ _ _ _ _ _ _ _ _ _ hreg
  · exact c5_password_hash_never_exposed.2.1 _ _ _ _ _ _ _ _ _ _ hlogin
  · exact c5_password_hash_never_exposed.2.2.2.1 _ _ _ _ _ _ _ _ _ hupd
  · exact c5_password_hash_never_exposed.2.2.2.2 saltA "abc12345"

theorem login_locked_reject (users : Store) (now : Nat) (sec e p : String)
    (u : User) (tL : Nat)
    (hnorm : pyLower (pyStrip e) = e) (hval : validate_email e = true) (hp : p ≠ "")
    (hget : storeGet users e = some u)
    (hlock : u.locked_until = some tL) (hfut : now < tL) :
    login users now sec e p
      = (.err 423 (lockedMsg ((tL - now) / usecPerSec)), users, []) := by
  have hne : (e == "") = false := beq_eq_false_iff_ne.mpr (validate_email_ne_empty hval)
  have hpe : (p == "") = false := beq_eq_false_iff_ne.mpr hp
  have hla : lockedActive u now = true := by simp [lockedActive, hlock, hfut]
  have hlr : lockRemaining u now = (tL - now) / usecPerSec := by simp [lockRemaining, hlock]
  simp [login, hnorm, hne, hpe, hval, hget, hla, hlr]

theorem login_fail_step (s : Store) (t : Nat) (sec e p : String) (u : User)
    (hnorm : pyLower (pyStrip e) = e) (hval : validate_email e = true) (hp : p ≠ "")
    (hget : storeGet s e = some u) (hopen : u.locked_until = none)
    (hfail : verify_password p u.password = false) :
    login s t sec e p
      = (.err 401 "邮箱或密码错误",
         storeSet s e (if 5 ≤ u.failed_login_attempts + 1 then
             { u with failed_login_attempts := 0, locked_until := some (t + lockoutSpan) }
           else { u with failed_login_attempts := u.failed_login_attempts + 1 }),
         [(p, u.password)]) := by
  have hne : (e == "") = false := beq_eq_false_iff_ne.mpr (validate_email_ne_empty hval)
  have hpe : (p == "") = false := beq_eq_false_iff_ne.mpr hp
  have hla : lockedActive u t = false := by simp [lockedActive, hopen]
  simp [login, hnorm, hne, hpe, hval, hget, hla, hfail]

/-- C2 (amended): a login against an account whose `locked_until` lies in
the future is rejected with the 423 lockout error before any
`verify_password` call (the returned trace of verification calls is
empty) and with the store untouched; the reported wait is
`int((locked_until - now).total_seconds())`, which is nonnegative and
strictly positive whenever at least one full second of lockout remains,
but is reported as 0 when less than one second remains. -/
theorem c2_locked_rejected_before_verification (users : Store) (now : Nat)
    (sec e p : String) (u : User) (tL : Nat)
    (hnorm : pyLower (pyStrip e) = e) (hval : validate_email e = true) (hp : p ≠ "")
    (hget : storeGet users e = some u)
    (hlock : u.locked_until = some tL) (hfut : now < tL) :
    login users now sec e p
      = (.err 423 (lockedMsg ((tL - now) / usecPerSec)), users, [])
    ∧ (now + usecPerSec ≤ tL → 0 < (tL - now) / usecPerSec) := by
  refine ⟨login_locked_reject users now sec e p u tL hnorm hval hp hget hlock hfut, ?_⟩
  intro h
  exact Nat.div_pos (by omega) (by decide)

/-- C2 as frozen is false on the code: one microsecond before the lockout
expiry the attempt is still rejected (without password verification), but
the reported number of remaining seconds is 0, not strictly positive. -/
theorem c2_counterexample :
    lockedDemoUser.locked_until = some (100 * usecPerSec)
    ∧ 100 * usecPerSec - 1 < 100 * usecPerSec
    ∧ login [("a@b.com", lockedDemoUser)] (100 * usecPerSec - 1) "sek" "a@b.com" "abc12345"
        = (.err 423 "账户已被锁定，请0秒后重试", [("a@b.com", lockedDemoUser)], []) := by
  refine ⟨rfl, by decide, ?_⟩
  decide

theorem c2_witness :
    pyLower (pyStrip "a@b.com") = "a@b.com"
    ∧ validate_email "a@b.com" = true
    ∧ "pw" ≠ ""
    ∧ storeGet [("a@b.com", lockedDemoUser)] "a@b.com" = some lockedDemoUser
    ∧ lockedDemoUser.locked_until = some (100 * usecPerSec)
    ∧ 50 * usecPerSec < 100 * usecPerSec
    ∧ login [("a@b.com", lockedDemoUser)] (50 * usecPerSec) "sek" "a@b.com" "pw"
        = (.err 423 (lockedMsg ((100 * usecPerSec - 50 * usecPerSec) / usecPerSec)),
           [("a@b.com", lockedDemoUser)], [])
    ∧ (50 * usecPerSec + usecPerSec ≤ 100 * usecPerSec →
        0 < (100 * usecPerSec - 50 * usecPerSec) / usecPerSec) := by
  have h := c2_locked_rejected_before_verification [("a@b.com", lockedDemoUser)]
    (50 * usecPerSec) "sek" "a@b.com" "pw" lockedDemoUser (100 * usecPerSec)
    (by decide) (by decide) (by decide) (by decide) rfl (by decide)
  exact ⟨by decide, by decide, by decide, by decide, rfl, by decide, h.1, h.2⟩

/-- C1: from an open account with a zero failure counter, five
consecutive failed logins leave the record locked until the fifth
attempt's time plus 15 minutes with `failed_login_attempts` reset to 0,
and a sixth attempt inside that window, even with the correct password,
is rejected with the 423 lockout error (no password verification, store
unchanged). -/
theorem c1_lockout_after_five_failures
    (s0 : Store) (sec e : String) (u : User)
    (p1 p2 p3 p4 p5 pw : String) (t1 t2 t3 t4 t5 t6 : Nat)
    (hnorm : pyLower (pyStrip e) = e) (hval : validate_email e = true)
    (hget : storeGet s0 e = some u)
    (hopen : u.locked_until = none) (hcnt : u.failed_login_attempts = 0)
    (hp1 : p1 ≠ "") (hp2 : p2 ≠ "") (hp3 : p3 ≠ "") (hp4 : p4 ≠ "") (hp5 : p5 ≠ "")
    (hf1 : verify_password p1 u.password = false)
    (hf2 : verify_password p2 u.password = false)
    (hf3 : verify_password p3 u.password = false)
    (hf4 : verify_password p4 u.password = false)
    (hf5 : verify_password p5 u.password = false)
    (hpw : pw ≠ "") (hcorrect : verify_password pw u.password = true)
    (h6 : t6 < t5 + lockoutSpan) :
    storeGet (List.foldl (afterFailedAttempt sec e) s0
        [(t1, p1), (t2, p2), (t3, p3), (t4, p4), (t5, p5)]) e
      = some { u with failed_login_attempts := 0, locked_until := some (t5 + lockoutSpan) }
    ∧ login (List.foldl (afterFailedAttempt sec e) s0
        [(t1, p1), (t2, p2), (t3, p3), (t4, p4), (t5, p5)]) t6 sec e pw
      = (.err 423 (lockedMsg ((t5 + lockoutSpan - t6) / usecPerSec)),
         List.foldl (afterFailedAttempt sec e) s0
           [(t1, p1), (t2, p2), (t3, p3), (t4, p4), (t5, p5)], []) := by
  have e1 : afterFailedAttempt sec e s0 (t1, p1)
      = storeSet s0 e { u with failed_login_attempts := 1 } := by
    unfold afterFailedAttempt
    rw [login_fail_step s0 t1 sec e p1 u hnorm hval hp1 hget hopen hf1]
    simp [hcnt]
  have hget1 : storeGet (storeSet s0 e { u with failed_login_attempts := 1 }) e
      = some { u with failed_login_attempts := 1 } := storeGet_storeSet_self _ _ _
  have e2 : afterFailedAttempt sec e (storeSet s0 e { u with failed_login_attempts := 1 }) (t2, p2)
      = storeSet (storeSet s0 e { u with failed_login_attempts := 1 }) e
          { u with failed_login_attempts := 2 } := by
    unfold afterFailedAttempt
    rw [login_fail_step _ t2 sec e p2 _ hnorm hval hp2 hget1 hopen hf2]
    norm_num
  have hget2 : storeGet (storeSet (storeSet s0 e { u with failed_login_attempts := 1 }) e
        { u with failed_login_attempts := 2 }) e
      = some { u with failed_login_attempts := 2 } := storeGet_storeSet_self _ _ _
  have e3 : afterFailedAttempt sec e (storeSet (storeSet s0 e
        { u with failed_login_attempts := 1 }) e { u with failed_login_attempts := 2 }) (t3, p3)
      = storeSet (storeSet (storeSet s0 e { u with failed_login_attempts := 1 }) e
          { u with failed_login_attempts := 2 }) e { u with failed_login_attempts := 3 } := by
    unfold afterFailedAttempt
    rw [login_fail_step _ t3 sec e p3 _ hnorm hval hp3 hget2 hopen hf3]
    norm_num
  have hget3 : storeGet (storeSet (storeSet (storeSet s0 e
        { u with failed_login_attempts := 1 }) e { u with failed_login_attempts := 2 }) e
        { u with failed_login_attempts := 3 }) e
      = some { u with failed_login_attempts := 3 } := storeGet_storeSet_self _ _ _
  have e4 : afterFailedAttempt sec e (storeSet (storeSet (storeSet s0 e
        { u with failed_login_attempts := 1 }) e { u with failed_login_attempts := 2 }) e
        { u with failed_login_attempts := 3 }) (t4, p4)
      = storeSet (storeSet (storeSet (storeSet s0 e { u with failed_login_attempts := 1 }) e
          { u with failed_login_attempts := 2 }) e { u with failed_login_attempts := 3 }) e
          { u with failed_login_attempts := 4 } := by
    unfold afterFailedAttempt
    rw [login_fail_step _ t4 sec e p4 _ hnorm hval hp4 hget3 hopen hf4]
    norm_num
  have hget4 : storeGet (storeSet (storeSet (storeSet (storeSet s0 e
        { u with failed_login_attempts := 1 }) e { u with failed_login_attempts := 2 }) e
        { u with failed_login_attempts := 3 }) e { u with failed_login_attempts := 4 }) e
      = some { u with failed_login_attempts := 4 } := storeGet_storeSet_self _ _ _
  have e5 : afterFailedAttempt sec e (storeSet (storeSet (storeSet (storeSet s0 e
        { u with failed_login_attempts := 1 }) e { u with failed_login_attempts := 2 }) e
        { u with failed_login_attempts := 3 }) e { u with failed_login_attempts := 4 }) (t5, p5)
      = storeSet (storeSet (storeSet (storeSet (storeSet s0 e
          { u with failed_login_attempts := 1 }) e { u with failed_login_attempts := 2 }) e
          { u with failed_login_attempts := 3 }) e { u with failed_login_attempts := 4 }) e
          { u with failed_login_attempts := 0, locked_until := some (t5 + lockoutSpan) } := by
    unfold afterFailedAttempt
    rw [login_fail_step _ t5 sec e p5 _ hnorm hval hp5 hget4 hopen hf5]
    norm_num
  have hfold : List.foldl (afterFailedAttempt sec e) s0
        [(t1, p1), (t2, p2), (t3, p3), (t4, p4), (t5, p5)]
      = storeSet (storeSet (storeSet (storeSet (storeSet s0 e
          { u with failed_login_attempts := 1 }) e { u with failed_login_attempts := 2 }) e
          { u with failed_login_attempts := 3 }) e { u with failed_login_attempts := 4 }) e
          { u with failed_login_attempts := 0, locked_until := some (t5 + lockoutSpan) } := by
    simp only [List.foldl]
    rw [e1, e2, e3, e4, e5]
  have hget5 : storeGet (List.foldl (afterFailedAttempt sec e) s0
        [(t1, p1), (t2, p2), (t3, p3), (t4, p4), (t5, p5)]) e
      = some { u with failed_login_attempts := 0, locked_until := some (t5 + lockoutSpan) } := by
    rw [hfold]
    exact storeGet_storeSet_self _ _ _
  refine ⟨hget5, ?_⟩
  exact login_locked_reject _ t6 sec e pw _ (t5 + lockoutSpan) hnorm hval hpw hget5 rfl h6

theorem c1_witness :
    pyLower (pyStrip "a@b.com") = "a@b.com"
    ∧ validate_email "a@b.com" = true
    ∧ storeGet demoStore "a@b.com" = some demoUser
    ∧ demoUser.locked_until = none
    ∧ demoUser.failed_login_attempts = 0
    ∧ verify_password "wrong999" demoUser.password = false
    ∧ verify_password "abc12345" demoUser.password = true
    ∧ (10 : Nat) < 5 + lockoutSpan
    ∧ storeGet (List.foldl (afterFailedAttempt "sek" "a@b.com") demoStore
        [(1, "wrong999"), (2, "wrong999"), (3, "wrong999"), (4, "wrong999"),
         (5, "wrong999")]) "a@b.com"
      = some { demoUser with
          failed_login_attempts := 0, locked_until := some (5 + lockoutSpan) }
    ∧ login (List.foldl (afterFailedAttempt "sek" "a@b.com") demoStore
        [(1, "wrong999"), (2, "wrong999"), (3, "wrong999"), (4, "wrong999"),
         (5, "wrong999")]) 10 "sek" "a@b.com" "abc12345"
      = (.err 423 (lockedMsg ((5 + lockoutSpan - 10) / usecPerSec)),
         List.foldl (afterFailedAttempt "sek" "a@b.com") demoStore
           [(1, "wrong999"), (2, "wrong999"), (3, "wrong999"), (4, "wrong999"),
            (5, "wrong999")], []) := by
  have h := c1_lockout_after_five_failures demoStore "sek" "a@b.com" demoUser
    "wrong999" "wrong999" "wrong999" "wrong999" "wrong999" "abc12345" 1 2 3 4 5 10
    (by decide) (by decide) (by decide) rfl rfl
    (by decide) (by decide) (by decide) (by decide) (by decide)
    (by decide) (by decide) (by decide) (by decide) (by decide)
    (by decide) (by decide) (by decide)
  exact ⟨by decide, by decide, by decide, rfl, rfl, by decide, by decide, by decide,
    h.1, h.2⟩

/-- C6: a login with a well-formed but unregistered email performs exactly
one dummy `verify_password` call against the fixed cost-12 placeholder
hash, writes nothing, and rejects with exactly the same status and
generic message as an existing account with a wrong password, so the two
rejections are equal. -/
theorem c6_unknown_email_indistinguishable
    (users users2 : Store) (now now2 : Nat) (sec sec2 e p e2 p2 : String) (u : User)
    (hnorm : pyLower (pyStrip e) = e) (hval : validate_email e = true) (hp : p ≠ "")
    (hnone : storeGet users e = none)
    (hnorm2 : pyLower (pyStrip e2) = e2) (hval2 : validate_email e2 = true) (hp2 : p2 ≠ "")
    (hget2 : storeGet users2 e2 = some u) (hnotlocked : lockedActive u now2 = false)
    (hwrong : verify_password p2 u.password = false) :
    (login users now sec e p).1 = .err 401 "邮箱或密码错误"
    ∧ (login users now sec e p).2.1 = users
    ∧ (login users now sec e p).2.2 = [(p, dummy_hash)]
    ∧ dummy_hash = bcryptHeader ++ ⟨List.replicate 53 'x'⟩
    ∧ (login users2 now2 sec2 e2 p2).1 = .err 401 "邮箱或密码错误"
    ∧ (login users now sec e p).1 = (login users2 now2 sec2 e2 p2).1 := by
  have hne : (e == "") = false := beq_eq_false_iff_ne.mpr (validate_email_ne_empty hval)
  have hpe : (p == "") = false := beq_eq_false_iff_ne.mpr hp
  have hne2 : (e2 == "") = false := beq_eq_false_iff_ne.mpr (validate_email_ne_empty hval2)
  have hpe2 : (p2 == "") = false := beq_eq_false_iff_ne.mpr hp2
  have h1 : (login users now sec e p) = (.err 401 "邮箱或密码错误", users, [(p, dummy_hash)]) := by
    simp [login, hnorm, hne, hpe, hval, hnone]
  have h2 : (login users2 now2 sec2 e2 p2).1 = .err 401 "邮箱或密码错误" := by
    simp [login, hnorm2, hne2, hpe2, hval2, hget2, hnotlocked, hwrong]
  refine ⟨by rw [h1], by rw [h1], by rw [h1], rfl, h2, ?_⟩
  rw [h1, h2]

theorem c6_witness :
    pyLower (pyStrip "c@b.com") = "c@b.com"
    ∧ validate_email "c@b.com" = true
    ∧ storeGet demoStore "c@b.com" = none
    ∧ storeGet demoStore "a@b.com" = some demoUser
    ∧ lockedActive demoUser 9 = false
    ∧ verify_password "wrong999" demoUser.password = false
    ∧ (login demoStore 7 "sek" "c@b.com" "pw").1 = .err 401 "邮箱或密码错误"
    ∧ (login demoStore 7 "sek" "c@b.com" "pw").2.2 = [("pw", dummy_hash)]
    ∧ (login demoStore 7 "sek" "c@b.com" "pw").1
        = (login demoStore 9 "sek" "a@b.com" "wrong999").1 := by
  have h := c6_unknown_email_indistinguishable demoStore demoStore 7 9 "sek" "sek"
    "c@b.com" "pw" "a@b.com" "wrong999" demoUser
    (by decide) (by decide) (by decide) (by decide)
    (by decide) (by decide) (by decide) (by decide) (by decide) (by decide)
  exact ⟨by decide, by decide, by decide, by decide, by decide, by decide,
    h.1, h.2.2.1, h.2.2.2.2.2⟩

theorem updUsernameStep_ok_email {users : Store} {userId : Nat} {user0 user1 : User}
    {d : Option String} (h : updUsernameStep users userId user0 d = .ok user1) :
    user1.email = user0.email := by
  cases d with
  | none =>
    simp only [updUsernameStep] at h
    cases h
    rfl
  | some uraw =>
    simp only [updUsernameStep] at h
    split at h
    · exact Except.noConfusion h
    · split at h
      · exact Except.noConfusion h
      · cases h
        rfl

/-- C7: a profile update whose `email` field, after strip and lowercase,
is well-formed, differs from the caller's own stored email, and is
already a key of the store (i.e. belongs to another record) fails with
the 400 conflict error, and the persisted store is exactly the input
store: `save_users` is never reached, so no record is modified or
rekeyed.  A `username` field, when present, is assumed to pass its own
validation and uniqueness checks (it is processed first; its failures
also leave the store unchanged but report a different error). -/
theorem c7_email_conflict_leaves_store_unchanged
    (users : Store) (now : Nat) (uid : Nat) (data : UpdateData)
    (key : String) (user0 user1 : User) (eraw : String)
    (hfind : storeFindById users uid = some (key, user0))
    (hustep : updUsernameStep users uid user0 data.username = .ok user1)
    (hemail : data.email = some eraw)
    (hvalE : validate_email (pyLower (pyStrip eraw)) = true)
    (hneq : pyLower (pyStrip eraw) ≠ user0.email)
    (hcont : storeContains users (pyLower (pyStrip eraw)) = true) :
    update_user users now uid uid data = (.err 400 "该邮箱已被使用", users) := by
  have hu1email : user1.email = user0.email := updUsernameStep_ok_email hustep
  have hbeq : (pyLower (pyStrip eraw) == user1.email) = false := by
    rw [hu1email]
    exact beq_eq_false_iff_ne.mpr hneq
  simp [update_user, hfind, hustep, hemail, updEmailStep, hvalE, hbeq, hcont]

theorem c7_witness :
    storeFindById twoStore 1 = some ("a@b.com", demoUser)
    ∧ updUsernameStep twoStore 1 demoUser none = .ok demoUser
    ∧ validate_email (pyLower (pyStrip "b@b.com")) = true
    ∧ pyLower (pyStrip "b@b.com") ≠ demoUser.email
    ∧ storeContains twoStore (pyLower (pyStrip "b@b.com")) = true
    ∧ update_user twoStore 30 1 1 { email := some "b@b.com" }
        = (.err 400 "该邮箱已被使用", twoStore) := by
  refine ⟨by decide, rfl, by decide, by decide, by decide, ?_⟩
  exact c7_email_conflict_leaves_store_unchanged twoStore 30 1 { email := some "b@b.com" }
    "a@b.com" demoUser demoUser "b@b.com" (by decide) rfl rfl
    (by decide) (by decide) (by decide)

/-- C9 (amended): the middleware rejects a missing or empty header with
401 "需要认证", and a header without a second space-separated word with
401 "无效的认证头", both distinct from the invalid-token rejection; for
every other header it uses the second word as the token without ever
checking the scheme word: verification failure yields the invalid-token
rejection 401 "无效或过期的Token", and success attaches the verified
payload's identity. -/
theorem c9_header_parsing (sec : String) (now : Nat) (dec : String → Option Jwt) :
    require_auth sec now dec none = .reject 401 "需要认证"
    ∧ require_auth sec now dec (some "") = .reject 401 "需要认证"
    ∧ (∀ h : String, h ≠ "" → (pySplitSpace h)[1]? = none →
        require_auth sec now dec (some h) = .reject 401 "无效的认证头")
    ∧ (∀ h t : String, h ≠ "" → (pySplitSpace h)[1]? = some t → t ≠ "" →
        (dec t).bind (verify_jwt_token sec now) = none →
        require_auth sec now dec (some h) = .reject 401 "无效或过期的Token")
    ∧ (∀ (h t : String) (p : JwtPayload), h ≠ "" → (pySplitSpace h)[1]? = some t →
        t ≠ "" → (dec t).bind (verify_jwt_token sec now) = some p →
        require_auth sec now dec (some h) = .proceed p.user_id p.email) := by
  refine ⟨by simp [require_auth], by simp [require_auth], ?_, ?_, ?_⟩
  · intro h hne hsplit
    have hb : (h == "") = false := beq_eq_false_iff_ne.mpr hne
    simp [require_auth, hb, hsplit]
  · intro h t hne hsplit htne hverify
    have hb : (h == "") = false := beq_eq_false_iff_ne.mpr hne
    have htb : (t == "") = false := beq_eq_false_iff_ne.mpr htne
    simp [require_auth, hb, hsplit, htb, hverify]
  · intro h t p hne hsplit htne hverify
    have hb : (h == "") = false := beq_eq_false_iff_ne.mpr hne
    have htb : (t == "") = false := beq_eq_false_iff_ne.mpr htne
    simp [require_auth, hb, hsplit, htb, hverify]

/-- C9 as frozen is false: the scheme word of the header is never
checked.  `"Basic junk"` is not of the form `Bearer <token>`, yet its
rejection is exactly the invalid-token rejection rather than a distinct
malformed-header rejection; and a non-Bearer header whose second word is
a valid token is authenticated instead of rejected. -/
theorem c9_counterexample :
    (pySplitSpace "Basic junk")[0]? = some "Basic"
    ∧ "Basic" ≠ "Bearer"
    ∧ require_auth "sek" 0 (fun _ => none) (some "Basic junk")
        = .reject 401 "无效或过期的Token"
    ∧ require_auth "sek" 0 dec0 (some "Bearer junk") = .reject 401 "无效或过期的Token"
    ∧ require_auth "sek" 0 dec0 (some "Basic tok") = .proceed 1 "a@b.com" := by
  decide

theorem c9_witness :
    require_auth "sek" 0 dec0 none = .reject 401 "需要认证"
    ∧ ("Bearer" ≠ "" ∧ (pySplitSpace "Bearer")[1]? = none
        ∧ require_auth "sek" 0 dec0 (some "Bearer") = .reject 401 "无效的认证头")
    ∧ ("Bearer junk" ≠ "" ∧ (pySplitSpace "Bearer junk")[1]? = some "junk" ∧ "junk" ≠ ""
        ∧ (dec0 "junk").bind (verify_jwt_token "sek" 0) = none
        ∧ require_auth "sek" 0 dec0 (some "Bearer junk")
            = .reject 401 "无效或过期的Token")
    ∧ ("Bearer tok" ≠ "" ∧ (pySplitSpace "Bearer tok")[1]? = some "tok" ∧ "tok" ≠ ""
        ∧ (dec0 "tok").bind (verify_jwt_token "sek" 0)
            = some { user_id := 1, email := "a@b.com", exp := 86400, iat := 0,
                     typ := "access" }
        ∧ require_auth "sek" 0 dec0 (some "Bearer tok") = .proceed 1 "a@b.com") := by
  have h := c9_header_parsing "sek" 0 dec0
  refine ⟨h.1, ⟨by decide, by decide, ?_⟩, ⟨by decide, by decide, by decide, by decide, ?_⟩,
    ⟨by decide, by decide, by decide, by decide, ?_⟩⟩
  · exact h.2.2.1 "Bearer" (by decide) (by decide)
  · exact h.2.2.2.1 "Bearer junk" "junk" (by decide) (by decide) (by decide) (by decide)
  · exact h.2.2.2.2 "Bearer tok" "tok"
      { user_id := 1, email := "a@b.com", exp := 86400, iat := 0, typ := "access" }
      (by decide) (by decide) (by decide) (by decide)

/-- C8: the login lockout read-modify-write is not atomic (no lock exists
between `load_users` and `save_users`).  With the account three failures
into the window, two concurrent wrong-password requests that both load
before either saves leave the persisted counter at 4 with no lockout,
while sequential execution of the same two requests locks the account and
resets the counter to 0: a lost update whose final counter also exceeds
the sequential outcome. -/
theorem c8_lost_update_demo :
    (storeGet (runSchedule (loginStoreUpdate 10 "sek" "a@b.com" "wrong999")
        (loginStoreUpdate 11 "sek" "a@b.com" "wrong999")
        [.loadA, .saveA, .loadB, .saveB] [("a@b.com", raceUser)]) "a@b.com").map
          (fun u => (u.failed_login_attempts, u.locked_until))
      = some (0, some (11 + lockoutSpan))
    ∧ (storeGet (runSchedule (loginStoreUpdate 10 "sek" "a@b.com" "wrong999")
        (loginStoreUpdate 11 "sek" "a@b.com" "wrong999")
        [.loadA, .loadB, .saveA, .saveB] [("a@b.com", raceUser)]) "a@b.com").map
          (fun u => (u.failed_login_attempts, u.locked_until))
      = some (4, none) := by
  decide

theorem toNat_ofNat_valid (n : Nat) (h1 : n < 55296) : (Char.ofNat n).toNat = n := by
  have hv : Nat.isValidChar n := Or.inl h1
  rw [Char.ofNat, dif_pos hv]
  rfl

theorem pyLowerChar_idem (c : Char) : pyLowerChar (pyLowerChar c) = pyLowerChar c := by
  unfold pyLowerChar
  by_cases h : 65 ≤ cp c ∧ cp c ≤ 90
  · rw [if_pos h]
    have ht : cp (Char.ofNat (cp c + 32)) = cp c + 32 :=
      toNat_ofNat_valid _ (by omega)
    rw [if_neg]
    omega
  · rw [if_neg h, if_neg h]

theorem pyLower_idem (s : String) : pyLower (pyLower s) = pyLower s := by
  unfold pyLower
  congr 1
  rw [List.map_map]
  exact List.map_congr_left (fun c _ => pyLowerChar_idem c)

theorem validate_username_ne_empty {u : String} (h : validate_username u = true) :
    u ≠ "" := by
  intro he
  subst he
  exact absurd h (by decide)

theorem usernameChar_not_control {c : Char} (h : usernameChar c = true) :
    isStrippedControl c = false := by
  simp only [usernameChar, Bool.or_eq_true, Bool.and_eq_true, decide_eq_true_eq] at h
  simp only [isStrippedControl, Bool.or_eq_true, Bool.and_eq_true, decide_eq_true_eq]
  simp only [Bool.or_eq_false_iff, Bool.and_eq_false_iff, decide_eq_false_iff_not]
  omega

theorem usernameChar_escChar {c : Char} (h : usernameChar c = true) :
    escChar c = [c] := by
  simp only [usernameChar, Bool.or_eq_true, Bool.and_eq_true, decide_eq_true_eq] at h
  have h38 : ¬ (cp c = 38) := by omega
  have h60 : ¬ (cp c = 60) := by omega
  have h62 : ¬ (cp c = 62) := by omega
  have h34 : ¬ (cp c = 34) := by omega
  have h39 : ¬ (cp c = 39) := by omega
  simp [escChar, h38, h60, h62, h34, h39]

theorem usernameChar_not_space {c : Char} (h : usernameChar c = true) :
    isPySpace c = false := by
  simp only [usernameChar, Bool.or_eq_true, Bool.and_eq_true, decide_eq_true_eq] at h
  simp only [isPySpace, Bool.or_eq_false_iff, decide_eq_false_iff_not]
  omega

theorem htmlEscape_eq_self {l : List Char} (h : ∀ c ∈ l, escChar c = [c]) :
    htmlEscape l = l := by
  induction l with
  | nil => rfl
  | cons c rest ih =>
    simp only [htmlEscape, List.flatMap_cons] at *
    rw [h c (List.mem_cons_self c rest), ih (fun x hx => h x (List.mem_cons_of_mem c hx))]
    rfl

theorem dropWhile_eq_self_of_all {p : Char → Bool} {l : List Char}
    (h : ∀ c ∈ l, p c = false) : l.dropWhile p = l := by
  cases l with
  | nil => rfl
  | cons c rest =>
    rw [List.dropWhile_cons_of_neg]
    simp [h c (List.mem_cons_self c rest)]

theorem pyStrip_eq_self_of_no_space {l : List Char}
    (h : ∀ c ∈ l, isPySpace c = false) : pyStrip ⟨l⟩ = ⟨l⟩ := by
  unfold pyStrip
  have h1 : l.dropWhile isPySpace = l := dropWhile_eq_self_of_all h
  simp only [h1]
  have h2 : l.reverse.dropWhile isPySpace = l.reverse :=
    dropWhile_eq_self_of_all (fun c hc => h c (List.mem_reverse.mp hc))
  simp [h2]

theorem sanitize_input_of_validated {u : String} (h : validate_username u = true) :
    sanitize_input u (some 20) = u := by
  have hsplit := h
  simp only [validate_username, Bool.and_eq_true, List.all_eq_true,
    decide_eq_true_eq] at hsplit
  have hall : ∀ c ∈ u.data, usernameChar c = true := fun c hc => hsplit.1.2 c hc
  have hlen : u.data.length ≤ 20 := hsplit.1.1.2
  unfold sanitize_input
  have hfilter : u.data.filter (fun c => !(isStrippedControl c)) = u.data := by
    rw [List.filter_eq_self]
    intro c hc
    simp [usernameChar_not_control (hall c hc)]
  have hescape : htmlEscape u.data = u.data :=
    htmlEscape_eq_self (fun c hc => usernameChar_escChar (hall c hc))
  simp only [hfilter, hescape]
  rw [if_neg (by omega)]
  rw [pyStrip_eq_self_of_no_space (fun c hc => usernameChar_not_space (hall c hc))]

theorem storeGet_some_mem {s : Store} {k : String} {u : User}
    (h : storeGet s k = some u) : (k, u) ∈ s := by
  unfold storeGet at h
  split at h
  next e hf =>
    cases h
    have hmem := List.mem_of_find?_eq_some hf
    have hpred := List.find?_some hf
    have hk : e.1 = k := by simpa using hpred
    obtain ⟨e1, e2⟩ := e
    simp only at hk
    subst hk
    exact hmem
  next hf => exact Option.noConfusion h

theorem storeContains_false_not_mem {s : Store} {k : String}
    (h : storeContains s k = false) : k ∉ s.map Prod.fst := by
  intro hmem
  obtain ⟨e, he, hfst⟩ := List.mem_map.mp hmem
  unfold storeContains at h
  rw [List.any_eq_false] at h
  exact (h e he) (by simp [hfst])

theorem storeSet_not_contains {s : Store} {k : String} (u : User)
    (h : storeContains s k = false) : storeSet s k u = s ++ [(k, u)] := by
  induction s with
  | nil => rfl
  | cons e rest ih =>
    unfold storeContains at h
    rw [List.any_cons, Bool.or_eq_false_iff] at h
    unfold storeSet
    rw [if_neg (by simp [h.1]), ih h.2]
    rfl

theorem mem_decomp_of_nodupKeys {s : Store} {k : String} {u : User}
    (hmem : (k, u) ∈ s) (hnd : (s.map Prod.fst).Nodup) :
    ∃ l1 l2, s = l1 ++ (k, u) :: l2 ∧ k ∉ l1.map Prod.fst ∧ k ∉ l2.map Prod.fst := by
  obtain ⟨l1, l2, rfl⟩ := List.append_of_mem hmem
  have hmid := List.nodup_middle.mp
    (show ((l1.map Prod.fst) ++ k :: (l2.map Prod.fst)).Nodup by simpa using hnd)
  have hnotin := (List.nodup_cons.mp hmid).1
  refine ⟨l1, l2, rfl, ?_, ?_⟩
  · intro hk
    exact hnotin (List.mem_append_left _ hk)
  · intro hk
    exact hnotin (List.mem_append_right _ hk)

theorem storeSet_append_keyed {l1 : Store} (l2 : Store) (k : String) (u u' : User)
    (h : k ∉ l1.map Prod.fst) :
    storeSet (l1 ++ (k, u) :: l2) k u' = l1 ++ (k, u') :: l2 := by
  induction l1 with
  | nil => simp [storeSet]
  | cons e t ih =>
    have hek : (e.1 == k) = false := by
      rw [beq_eq_false_iff_ne]
      intro hk
      exact h (by simp [hk])
    have ih2 := ih (fun hk => h (List.mem_cons_of_mem _ hk))
    simp [storeSet, hek, ih2]

theorem storeErase_append_keyed {l1 : Store} (l2 : Store) (k : String) (u : User)
    (h : k ∉ l1.map Prod.fst) :
    storeErase (l1 ++ (k, u) :: l2) k = l1 ++ l2 := by
  induction l1 with
  | nil => simp [storeErase]
  | cons e t ih =>
    have hek : (e.1 == k) = false := by
      rw [beq_eq_false_iff_ne]
      intro hk
      exact h (by simp [hk])
    have ih2 := ih (fun hk => h (List.mem_cons_of_mem _ hk))
    simp [storeErase, hek, ih2]

theorem storeFindById_some {s : Store} {uid : Nat} {e : String × User}
    (h : storeFindById s uid = some e) : e ∈ s ∧ e.2.id = uid := by
  unfold storeFindById at h
  refine ⟨List.mem_of_find?_eq_some h, ?_⟩
  have := List.find?_some h
  simpa using this

theorem nodup_append_singleton {α : Type} {l : List α} {a : α}
    (h1 : l.Nodup) (h2 : a ∉ l) : (l ++ [a]).Nodup := by
  rw [List.nodup_append]
  refine ⟨h1, List.nodup_singleton a, ?_⟩
  intro x hx hmem
  rw [List.mem_singleton] at hmem
  subst hmem
  exact h2 hx

theorem storeInv_append (s : Store) (k : String) (u : User)
    (hinv : StoreInv s)
    (hkey : k ∉ s.map Prod.fst)
    (hkeq : k = u.email) (hlow : pyLower k = k)
    (husername : pyLower u.username ∉ s.map (fun e => pyLower e.2.username))
    (hid : u.id = s.length + 1) :
    StoreInv (s ++ [(k, u)]) := by
  obtain ⟨hent, hkeys, hnames, hids⟩ := hinv
  refine ⟨?_, ?_, ?_, ?_⟩
  · intro e he
    rw [List.mem_append] at he
    rcases he with he | he
    · obtain ⟨h1, h2, h3, h4⟩ := hent e he
      refine ⟨h1, h2, h3, ?_⟩
      rw [List.length_append]
      omega
    · rw [List.mem_singleton] at he
      subst he
      refine ⟨hkeq, hlow, ?_, ?_⟩
      · show 1 ≤ u.id
        omega
      · show u.id ≤ (s ++ [(k, u)]).length
        rw [List.length_append]
        simp only [List.length_cons, List.length_nil]
        omega
  · rw [List.map_append]
    exact nodup_append_singleton hkeys (by simpa using hkey)
  · rw [List.map_append]
    exact nodup_append_singleton hnames (by simpa using husername)
  · rw [List.map_append]
    refine nodup_append_singleton hids ?_
    intro hmem
    simp only [List.mem_map] at hmem
    obtain ⟨e, he, hfst⟩ := hmem
    have hfst2 : e.2.id = u.id := hfst
    have := (hent e he).2.2.2
    omega

theorem storeInv_replace (l1 l2 : Store) (k : String) (u u' : User)
    (hinv : StoreInv (l1 ++ (k, u) :: l2))
    (hemail : u'.email = u.email) (hid : u'.id = u.id)
    (husername : pyLower u'.username = pyLower u.username ∨
      pyLower u'.username ∉ (l1 ++ l2).map (fun e => pyLower e.2.username)) :
    StoreInv (l1 ++ (k, u') :: l2) := by
  obtain ⟨hent, hkeys, hnames, hids⟩ := hinv
  have hmidprops := hent (k, u) (by simp)
  have hlen : (l1 ++ (k, u') :: l2).length = (l1 ++ (k, u) :: l2).length := by simp
  refine ⟨?_, ?_, ?_, ?_⟩
  · intro e he
    rw [List.mem_append, List.mem_cons] at he
    rcases he with he | he | he
    · obtain ⟨h1, h2, h3, h4⟩ := hent e (by simp [he])
      exact ⟨h1, h2, h3, by rw [hlen]; exact h4⟩
    · subst he
      refine ⟨by rw [hemail]; exact hmidprops.1, hmidprops.2.1, ?_, ?_⟩
      · rw [hid]
        exact hmidprops.2.2.1
      · rw [hid, hlen]
        exact hmidprops.2.2.2
    · obtain ⟨h1, h2, h3, h4⟩ := hent e (by simp [he])
      exact ⟨h1, h2, h3, by rw [hlen]; exact h4⟩
  · have : (l1 ++ (k, u') :: l2).map Prod.fst = (l1 ++ (k, u) :: l2).map Prod.fst := by
      simp
    rw [this]
    exact hkeys
  · rcases husername with heq | hnotin
    · have : (l1 ++ (k, u') :: l2).map (fun e => pyLower e.2.username)
          = (l1 ++ (k, u) :: l2).map (fun e => pyLower e.2.username) := by
        simp [heq]
      rw [this]
      exact hnames
    · rw [List.map_append, List.map_cons]
      rw [List.nodup_middle]
      have horig := List.nodup_middle.mp
        (show ((l1.map (fun e => pyLower e.2.username)) ++ pyLower u.username ::
            (l2.map (fun e => pyLower e.2.username))).Nodup by simpa using hnames)
      refine List.nodup_cons.mpr ⟨?_, (List.nodup_cons.mp horig).2⟩
      intro hmem
      apply hnotin
      rw [List.map_append]
      exact hmem
  · have : (l1 ++ (k, u') :: l2).map (fun e => e.2.id)
        = (l1 ++ (k, u) :: l2).map (fun e => e.2.id) := by
      simp [hid]
    rw [this]
    exact hids

theorem storeInv_rekey (l1 l2 : Store) (k k' : String) (u u' : User)
    (hinv : StoreInv (l1 ++ (k, u) :: l2))
    (hfresh : k' ∉ (l1 ++ (k, u) :: l2).map Prod.fst)
    (hkeq : k' = u'.email) (hlow : pyLower k' = k')
    (hid : u'.id = u.id)
    (husername : pyLower u'.username = pyLower u.username ∨
      pyLower u'.username ∉ (l1 ++ l2).map (fun e => pyLower e.2.username)) :
    StoreInv ((l1 ++ l2) ++ [(k', u')]) := by
  obtain ⟨hent, hkeys, hnames, hids⟩ := hinv
  have hmidprops := hent (k, u) (by simp)
  have hlen : ((l1 ++ l2) ++ [(k', u')]).length = (l1 ++ (k, u) :: l2).length := by
    simp
  have hkeysmid := List.nodup_middle.mp
    (show ((l1.map Prod.fst) ++ k :: (l2.map Prod.fst)).Nodup by simpa using hkeys)
  have hnamesmid := List.nodup_middle.mp
    (show ((l1.map (fun e => pyLower e.2.username)) ++ pyLower u.username ::
        (l2.map (fun e => pyLower e.2.username))).Nodup by simpa using hnames)
  have hidsmid := List.nodup_middle.mp
    (show ((l1.map (fun e => e.2.id)) ++ u.id :: (l2.map (fun e => e.2.id))).Nodup
      by simpa using hids)
  refine ⟨?_, ?_, ?_, ?_⟩
  · intro e he
    rw [List.mem_append] at he
    rcases he with he | he
    · obtain ⟨h1, h2, h3, h4⟩ := hent e (by
        rw [List.mem_append] at he
        rcases he with he | he
        · exact List.mem_append_left _ he
        · exact List.mem_append_right _ (List.mem_cons_of_mem _ he))
      exact ⟨h1, h2, h3, by rw [hlen]; exact h4⟩
    · rw [List.mem_singleton] at he
      subst he
      refine ⟨hkeq, hlow, ?_, ?_⟩
      · rw [hid]
        exact hmidprops.2.2.1
      · rw [hid, hlen]
        exact hmidprops.2.2.2
  · rw [List.map_append, List.map_append]
    refine nodup_append_singleton ?_ ?_
    · exact (List.nodup_cons.mp hkeysmid).2
    · intro hmem
      apply hfresh
      simp only [List.map_append, List.map_cons]
      rw [List.mem_append] at hmem ⊢
      rcases hmem with hm | hm
      · exact Or.inl hm
      · exact Or.inr (List.mem_cons_of_mem _ hm)
  · rw [List.map_append, List.map_append]
    show (l1.map (fun e => pyLower e.2.username) ++ l2.map (fun e => pyLower e.2.username))
        ++ [pyLower u'.username] |>.Nodup
    rcases husername with heq | hnotin
    · rw [heq]
      exact nodup_append_singleton (List.nodup_cons.mp hnamesmid).2
        (List.nodup_cons.mp hnamesmid).1
    · refine nodup_append_singleton (List.nodup_cons.mp hnamesmid).2 ?_
      intro hmem
      apply hnotin
      rw [List.map_append]
      exact hmem
  · rw [List.map_append, List.map_append]
    show (l1.map (fun e => e.2.id) ++ l2.map (fun e => e.2.id)) ++ [u'.id] |>.Nodup
    rw [hid]
    exact nodup_append_singleton (List.nodup_cons.mp hidsmid).2
      (List.nodup_cons.mp hidsmid).1

theorem updUsernameStep_ok_spec {users : Store} {uid : Nat} {user0 user1 : User}
    {d : Option String} (h : updUsernameStep users uid user0 d = .ok user1) :
    user1.email = user0.email ∧ user1.id = user0.id ∧
    (user1.username = user0.username ∨
      ((users.filter (fun e => e.2.id != uid)).map (fun e => pyLower e.2.username)).contains
        (pyLower user1.username) = false) := by
  cases d with
  | none =>
    simp only [updUsernameStep] at h
    cases h
    exact ⟨rfl, rfl, Or.inl rfl⟩
  | some uraw =>
    simp only [updUsernameStep] at h
    split at h
    · exact Except.noConfusion h
    · split at h
      next hcontains => exact Except.noConfusion h
      next hcontains =>
        cases h
        refine ⟨rfl, rfl, Or.inr ?_⟩
        rw [Bool.not_eq_true] at hcontains
        exact hcontains

theorem updEmailStep_ok_spec {users : Store} {user1 user2 : User}
    {d : Option String} {rekeyedFrom : Option String}
    (h : updEmailStep users user1 d = .ok (user2, rekeyedFrom)) :
    user2.id = user1.id ∧ user2.username = user1.username ∧
    ((rekeyedFrom = none ∧ user2.email = user1.email) ∨
      (rekeyedFrom = some user1.email
        ∧ validate_email user2.email = true
        ∧ pyLower user2.email = user2.email
        ∧ storeContains users user2.email = false)) := by
  cases d with
  | none =>
    simp only [updEmailStep] at h
    cases h
    exact ⟨rfl, rfl, Or.inl ⟨rfl, rfl⟩⟩
  | some eraw =>
    simp only [updEmailStep] at h
    split at h
    next hval => exact Except.noConfusion h
    next hval =>
      split at h
      next heq =>
        cases h
        exact ⟨rfl, rfl, Or.inl ⟨rfl, rfl⟩⟩
      next hne =>
        split at h
        next hcont => exact Except.noConfusion h
        next hcont =>
          cases h
          refine ⟨rfl, rfl, Or.inr ⟨rfl, ?_, ?_, ?_⟩⟩
          · rw [Bool.not_eq_true] at hval
            simpa using hval
          · exact pyLower_idem (pyStrip eraw)
          · rw [Bool.not_eq_true] at hcont
            exact hcont

theorem updAvatarStep_ok_spec {user3 user4 : User} {d : Option (Option String)}
    (h : updAvatarStep user3 d = .ok user4) :
    user4.email = user3.email ∧ user4.id = user3.id ∧ user4.username = user3.username := by
  match d with
  | none =>
    simp only [updAvatarStep] at h
    cases h
    exact ⟨rfl, rfl, rfl⟩
  | some (some a) =>
    simp only [updAvatarStep] at h
    split at h
    · exact Except.noConfusion h
    · cases h
      exact ⟨rfl, rfl, rfl⟩
  | some none =>
    simp only [updAvatarStep] at h
    cases h
    exact ⟨rfl, rfl, rfl⟩

theorem updGenderStep_spec (user2 : User) (d : Option String) :
    (updGenderStep user2 d).email = user2.email
    ∧ (updGenderStep user2 d).id = user2.id
    ∧ (updGenderStep user2 d).username = user2.username := by
  cases d <;> exact ⟨rfl, rfl, rfl⟩

theorem filter_ne_id_eq {l1 l2 : Store} {k : String} {u : User} {uid : Nat}
    (hids : ((l1 ++ (k, u) :: l2).map (fun e => e.2.id)).Nodup) (hu : u.id = uid) :
    (l1 ++ (k, u) :: l2).filter (fun e => e.2.id != uid) = l1 ++ l2 := by
  have hmid := List.nodup_middle.mp
    (show ((l1.map (fun e => e.2.id)) ++ u.id :: (l2.map (fun e => e.2.id))).Nodup
      by simpa using hids)
  have hnotin := (List.nodup_cons.mp hmid).1
  rw [List.filter_append, List.filter_cons]
  have hcond : (((k, u).2.id != uid) = true) = False := by
    simp [hu]
  rw [if_neg (by simp [hu])]
  have hl1 : l1.filter (fun e => e.2.id != uid) = l1 := by
    rw [List.filter_eq_self]
    intro x hx
    simp only [bne_iff_ne, ne_eq, decide_eq_true_eq]
    intro hxid
    apply hnotin
    apply List.mem_append_left
    rw [List.mem_map]
    exact ⟨x, hx, by omega⟩
  have hl2 : l2.filter (fun e => e.2.id != uid) = l2 := by
    rw [List.filter_eq_self]
    intro x hx
    simp only [bne_iff_ne, ne_eq, decide_eq_true_eq]
    intro hxid
    apply hnotin
    apply List.mem_append_right
    rw [List.mem_map]
    exact ⟨x, hx, by omega⟩
  rw [hl1, hl2]

theorem storeContains_false_sub {l1 l2 : Store} {k : String} {e : String × User}
    (h : storeContains (l1 ++ e :: l2) k = false) :
    storeContains (l1 ++ l2) k = false := by
  unfold storeContains at *
  rw [List.any_eq_false] at *
  intro x hx
  apply h
  rw [List.mem_append] at hx ⊢
  rcases hx with hx | hx
  · exact Or.inl hx
  · exact Or.inr (List.mem_cons_of_mem _ hx)

theorem contains_false_not_mem {a : String} {l : List String}
    (h : l.contains a = false) : a ∉ l := by
  intro hmem
  have h2 : List.elem a l = true := List.elem_eq_true_of_mem hmem
  have h3 : List.elem a l = false := h
  rw [h2] at h3
  exact Bool.noConfusion h3

theorem register_preserves_storeInv {s s' : Store} {r : ApiResp} {now : Nat}
    {sec salt eraw praw un g : String} {av : Option String}
    (hinv : StoreInv s) (h : register s now sec salt eraw praw un g av = (r, s')) :
    StoreInv s' := by
  simp only [register] at h
  split at h
  · rw [Prod.mk.injEq] at h
    exact h.2 ▸ hinv
  next h1 =>
    split at h
    · rw [Prod.mk.injEq] at h
      exact h.2 ▸ hinv
    next hvalE =>
      split at h
      · rw [Prod.mk.injEq] at h
        exact h.2 ▸ hinv
      next hvalU =>
        split at h
        · rw [Prod.mk.injEq] at h
          exact h.2 ▸ hinv
        next hlen8 =>
          split at h
          · rw [Prod.mk.injEq] at h
            exact h.2 ▸ hinv
          next hlen128 =>
            split at h
            · rw [Prod.mk.injEq] at h
              exact h.2 ▸ hinv
            next hchars =>
              split at h
              · rw [Prod.mk.injEq] at h
                exact h.2 ▸ hinv
              next hcont =>
                split at h
                · rw [Prod.mk.injEq] at h
                  exact h.2 ▸ hinv
                next hun =>
                  split at h
                  · rw [Prod.mk.injEq] at h
                    exact h.2 ▸ hinv
                  next hav =>
                    rw [Prod.mk.injEq] at h
                    obtain ⟨hr, hs⟩ := h
                    rw [Bool.not_eq_true] at hcont hun
                    rw [← hs, storeSet_not_contains _ hcont]
                    apply storeInv_append s _ _ hinv
                    · exact storeContains_false_not_mem hcont
                    · rfl
                    · exact pyLower_idem _
                    · exact contains_false_not_mem hun
                    · rfl

theorem login_preserves_storeInv {s s' : Store} {r : ApiResp} {tr : List (String × String)}
    {now : Nat} {sec eraw praw : String}
    (hinv : StoreInv s) (h : login s now sec eraw praw = (r, s', tr)) : StoreInv s' := by
  simp only [login] at h
  split at h
  · simp only [Prod.mk.injEq] at h
    exact h.2.1 ▸ hinv
  next h1 =>
    split at h
    · simp only [Prod.mk.injEq] at h
      exact h.2.1 ▸ hinv
    next h2 =>
      split at h
      next hnone =>
        simp only [Prod.mk.injEq] at h
        exact h.2.1 ▸ hinv
      next user hget =>
        split at h
        · simp only [Prod.mk.injEq] at h
          exact h.2.1 ▸ hinv
        next hlock =>
          split at h
          next hfail =>
            simp only [Prod.mk.injEq] at h
            obtain ⟨hr1, hs, htr⟩ := h
            obtain ⟨l1, l2, hseq, hk1, hk2⟩ :=
              mem_decomp_of_nodupKeys (storeGet_some_mem hget) hinv.2.1
            subst hseq
            rw [storeSet_append_keyed l2 _ user _ hk1] at hs
            rw [← hs]
            apply storeInv_replace l1 l2 _ user _ hinv
            · split <;> rfl
            · split <;> rfl
            · left
              split <;> rfl
          next hok =>
            simp only [Prod.mk.injEq] at h
            obtain ⟨hr1, hs, htr⟩ := h
            obtain ⟨l1, l2, hseq, hk1, hk2⟩ :=
              mem_decomp_of_nodupKeys (storeGet_some_mem hget) hinv.2.1
            subst hseq
            rw [storeSet_append_keyed l2 _ user _ hk1] at hs
            rw [← hs]
            apply storeInv_replace l1 l2 _ user _ hinv
            · rfl
            · rfl
            · exact Or.inl rfl

theorem update_preserves_storeInv {s s' : Store} {r : ApiResp} {now cu uid : Nat}
    {data : UpdateData} (hinv : StoreInv s)
    (h : update_user s now cu uid data = (r, s')) : StoreInv s' := by
  simp only [update_user] at h
  split at h
  · rw [Prod.mk.injEq] at h
    exact h.2 ▸ hinv
  · split at h
    · rw [Prod.mk.injEq] at h
      exact h.2 ▸ hinv
    next entry hfind =>
      split at h
      next resp hustep =>
        rw [Prod.mk.injEq] at h
        exact h.2 ▸ hinv
      next user1 hustep =>
        split at h
        next resp hestep =>
          rw [Prod.mk.injEq] at h
          exact h.2 ▸ hinv
        next user2 rekeyedFrom hestep =>
          split at h
          next resp hastep =>
            rw [Prod.mk.injEq] at h
            exact h.2 ▸ hinv
          next user4 hastep =>
            rw [Prod.mk.injEq] at h
            obtain ⟨hr, hs⟩ := h
            have hfind2 := storeFindById_some hfind
            have uspec := updUsernameStep_ok_spec hustep
            have espec := updEmailStep_ok_spec hestep
            have gspec := updGenderStep_spec user2 data.gender
            have aspec := updAvatarStep_ok_spec hastep
            have hem4 : user4.email = user2.email := by rw [aspec.1, gspec.1]
            have hid4 : user4.id = user2.id := by rw [aspec.2.1, gspec.2.1]
            have hun4 : user4.username = user2.username := by rw [aspec.2.2, gspec.2.2]
            have hentmem : (entry.1, entry.2) ∈ s := hfind2.1
            have hkeyeq : entry.1 = entry.2.email := (hinv.1 entry hfind2.1).1
            obtain ⟨l1, l2, hseq, hk1, hk2⟩ := mem_decomp_of_nodupKeys hentmem hinv.2.1
            split at hs
            next oldEmail hrk =>
              rcases espec.2.2 with ⟨hnone, _⟩ | ⟨hsome, hvalE, hlowE, hcontE⟩
              · exact Option.noConfusion hnone
              · have holdk : hrk = entry.1 := by
                  rw [Option.some.inj hsome, uspec.1, ← hkeyeq]
                subst hseq
                rw [holdk] at hs
                rw [storeErase_append_keyed l2 entry.1 entry.2 hk1] at hs
                have hcontE2 : storeContains (l1 ++ l2) user2.email = false :=
                  storeContains_false_sub hcontE
                have hcontE3 : storeContains (l1 ++ l2) user4.email = false := by
                  rw [hem4]
                  exact hcontE2
                rw [storeSet_not_contains _ hcontE3] at hs
                rw [← hs]
                apply storeInv_rekey l1 l2 entry.1 _ entry.2 _ hinv
                · apply storeContains_false_not_mem
                  rw [hem4]
                  exact hcontE
                · rfl
                · show pyLower user4.email = user4.email
                  rw [hem4]
                  exact hlowE
                · show user4.id = entry.2.id
                  rw [hid4, espec.1, uspec.2.1]
                · rcases uspec.2.2 with hsame | hcontU
                  · left
                    show pyLower user4.username = pyLower entry.2.username
                    rw [hun4, espec.2.1, hsame]
                  · right
                    show pyLower user4.username ∉
                      (l1 ++ l2).map (fun e => pyLower e.2.username)
                    rw [hun4, espec.2.1]
                    have hfil := filter_ne_id_eq hinv.2.2.2 hfind2.2
                    rw [hfil] at hcontU
                    exact contains_false_not_mem hcontU
            next hrk =>
              rcases espec.2.2 with ⟨hnone, hem2⟩ | ⟨hsome, hvalE, hlowE, hcontE⟩
              · subst hseq
                rw [storeSet_append_keyed l2 _ entry.2 _ hk1] at hs
                rw [← hs]
                apply storeInv_replace l1 l2 _ entry.2 _ hinv
                · show user4.email = entry.2.email
                  rw [hem4, hem2, uspec.1]
                · show user4.id = entry.2.id
                  rw [hid4, espec.1, uspec.2.1]
                · rcases uspec.2.2 with hsame | hcontU
                  · left
                    show pyLower user4.username = pyLower entry.2.username
                    rw [hun4, espec.2.1, hsame]
                  · right
                    show pyLower user4.username ∉
                      (l1 ++ l2).map (fun e => pyLower e.2.username)
                    rw [hun4, espec.2.1]
                    have hfil := filter_ne_id_eq hinv.2.2.2 hfind2.2
                    rw [hfil] at hcontU
                    exact contains_false_not_mem hcontU
              · exact Option.noConfusion hsome

theorem reachable_storeInv {s : Store} (h : Reachable s) : StoreInv s := by
  induction h with
  | init =>
    refine ⟨?_, ?_, ?_, ?_⟩ <;> simp
  | register_step _ _ _ _ _ _ _ _ _ heq ih => exact register_preserves_storeInv ih heq
  | login_step _ _ _ _ _ heq ih => exact login_preserves_storeInv ih heq
  | update_step _ _ _ _ _ heq ih => exact update_preserves_storeInv ih heq

/-- C10: in every store reachable through registration, login and profile
update, each storage key is an all-lowercase string equal to the email
field of its record: emails are lowercased on entry and an email change
rekeys the record under the new lowercase email. -/
theorem c10_keys_lowercase_email (s : Store) (h : Reachable s) :
    ∀ e ∈ s, pyLower e.1 = e.1 ∧ e.1 = e.2.email := by
  have hinv := reachable_storeInv h
  intro e he
  exact ⟨(hinv.1 e he).2.1, (hinv.1 e he).1⟩

/-- C4: every reachable store holds at most one record per
case-insensitive email and at most one per case-insensitive username;
and a registration that passes every earlier check but whose username
differs only in case from an existing record's username is rejected with
the duplicate-username error, leaving the store unchanged. -/
theorem c4_case_insensitive_uniqueness :
    (∀ s : Store, Reachable s →
      (s.map (fun e => pyLower e.2.email)).Nodup
      ∧ (s.map (fun e => pyLower e.2.username)).Nodup)
    ∧ (∀ (s : Store) (now : Nat) (sec salt eraw praw unameInput g : String)
        (av : Option String) (entry : String × User), entry ∈ s →
        validate_email (pyLower (pyStrip eraw)) = true →
        validate_username (pyStrip unameInput) = true →
        ¬ praw.length < 8 → ¬ 128 < praw.length →
        (praw.data.any asciiAlpha) = true → (praw.data.any asciiDigit) = true →
        storeContains s (pyLower (pyStrip eraw)) = false →
        pyLower (pyStrip unameInput) = pyLower entry.2.username →
        register s now sec salt eraw praw unameInput g av
          = (.err 400 "该用户名已被使用", s)) := by
  constructor
  · intro s h
    have hinv := reachable_storeInv h
    constructor
    · have hmap : s.map (fun e => pyLower e.2.email) = s.map Prod.fst :=
        List.map_congr_left (fun e he => by
          rw [← (hinv.1 e he).1]
          exact (hinv.1 e he).2.1)
      rw [hmap]
      exact hinv.2.1
    · exact hinv.2.2.1
  · intro s now sec salt eraw praw unameInput g av entry hentry hvalE hvalU h8 h128
      halpha hdigit hcontE hcase
    have hne1 : (pyLower (pyStrip eraw) == "") = false :=
      beq_eq_false_iff_ne.mpr (validate_email_ne_empty hvalE)
    have hne3 : (pyStrip unameInput == "") = false :=
      beq_eq_false_iff_ne.mpr (validate_username_ne_empty hvalU)
    have hne2 : (praw == "") = false := by
      rw [beq_eq_false_iff_ne]
      intro hh
      subst hh
      exact h8 (by decide)
    have hsan : sanitize_input (pyStrip unameInput) (some 20) = pyStrip unameInput :=
      sanitize_input_of_validated hvalU
    have hmem : pyLower entry.2.username ∈ s.map (fun e => pyLower e.2.username) :=
      List.mem_map_of_mem _ hentry
    have hcontT : (s.map (fun e => pyLower e.2.username)).contains
        (pyLower (sanitize_input (pyStrip unameInput) (some 20))) = true := by
      rw [hsan, hcase]
      exact List.elem_eq_true_of_mem hmem
    simp [register, hne1, hne2, hne3, hvalE, hvalU, h8, h128, halpha, hdigit,
      hcontE, hcontT]
    intro hforall
    have hcontra := hforall entry.1 entry.2 hentry
    rw [hsan, hcase] at hcontra
    exact absurd rfl hcontra

theorem c10_witness :
    pyLower "a@b.com" = "a@b.com" ∧ "a@b.com" = demoUser.email := by
  have hreg : register [] 5 "sek" saltA "a@b.com" "abc12345" "alice" "" none
      = (.ok 201 (user_response demoUser) (some (generate_jwt_token "sek" 5 1 "a@b.com")),
         demoStore) := by decide
  have hreach : Reachable demoStore :=
    Reachable.register_step 5 "sek" saltA "a@b.com" "abc12345" "alice" "" none
      Reachable.init hreg
  exact c10_keys_lowercase_email demoStore hreach ("a@b.com", demoUser) (by decide)

theorem c4_witness :
    ((demoStore.map (fun e => pyLower e.2.email)).Nodup
      ∧ (demoStore.map (fun e => pyLower e.2.username)).Nodup)
    ∧ (("a@b.com", demoUser) ∈ demoStore
      ∧ validate_email (pyLower (pyStrip "c@b.com")) = true
      ∧ validate_username (pyStrip "Alice") = true
      ∧ ¬ ("pass1234" : String).length < 8
      ∧ ¬ 128 < ("pass1234" : String).length
      ∧ ("pass1234".data.any asciiAlpha) = true
      ∧ ("pass1234".data.any asciiDigit) = true
      ∧ storeContains demoStore (pyLower (pyStrip "c@b.com")) = false
      ∧ pyLower (pyStrip "Alice") = pyLower demoUser.username
      ∧ register demoStore 9 "sek" saltA "c@b.com" "pass1234" "Alice" "" none
          = (.err 400 "该用户名已被使用", demoStore)) := by
  have hreg : register [] 5 "sek" saltA "a@b.com" "abc12345" "alice" "" none
      = (.ok 201 (user_response demoUser) (some (generate_jwt_token "sek" 5 1 "a@b.com")),
         demoStore) := by decide
  have hreach : Reachable demoStore :=
    Reachable.register_step 5 "sek" saltA "a@b.com" "abc12345" "alice" "" none
      Reachable.init hreg
  refine ⟨c4_case_insensitive_uniqueness.1 demoStore hreach, ?_⟩
  refine ⟨by decide, by decide, by decide, by decide, by decide, by decide, by decide,
    by decide, by decide, ?_⟩
  exact c4_case_insensitive_uniqueness.2 demoStore 9 "sek" saltA "c@b.com" "pass1234"
    "Alice" "" none ("a@b.com", demoUser) (by decide) (by decide) (by decide)
    (by decide) (by decide) (by decide) (by decide) (by decide) (by decide)
